import Mathlib

set_option maxRecDepth 400000

/-!
Verification development for the leaderboard backend of the gesture-shooter
game (Express + MySQL).  The server core — Telegram signed-payload
verification (`src/server/middleware/telegramAuth.js`), game-result
validation (`src/server/middleware/validation.js`), the score routes
(`src/server/routes/scores.js`), the auth routes
(`src/server/routes/auth.js`) and the configuration constants
(`src/server/config/constants.js`) — is shallowly embedded below.

Modelling conventions:
* machine integers are `Nat`/`Int` with explicit `% 2 ^ 32` where the
  hash arithmetic overflows; JS floating-point ratios are modelled as
  exact rationals (`ℚ`);
* strings handed to HMAC are their UTF-8 bytes, as `List Nat`
  (each < 256);
* `crypto.createHmac('sha256', …)` is embedded as a full executable
  HMAC-SHA-256 over those byte lists, so every theorem can be evaluated
  on concrete payloads by the kernel;
* fallible steps (a throwing `crypto.timingSafeEqual`, a duplicate-key
  `INSERT`) return `Except`, and the surrounding `try`/`catch` of the
  source is an explicit `match` on that `Except`;
* `process.env.X` is an `Option String`; JavaScript truthiness of an
  optional string (`undefined` and `''` are falsy) is made explicit.
-/

namespace GameServer

/-! ## Bytes, UTF-8 and hex -/

/-- UTF-8 encoding of a single Unicode code point, as bytes. -/
def utf8Char (c : Nat) : List Nat :=
  if c < 0x80 then [c]
  else if c < 0x800 then
    [0xc0 + c / 64, 0x80 + c % 64]
  else if c < 0x10000 then
    [0xe0 + c / 4096, 0x80 + (c / 64) % 64, 0x80 + c % 64]
  else
    [0xf0 + c / 262144, 0x80 + (c / 4096) % 64, 0x80 + (c / 64) % 64,
     0x80 + c % 64]

/-- UTF-8 bytes of a string (the bytes `Buffer.from(s, 'utf8')` yields). -/
def utf8 (s : String) : List Nat :=
  s.data.foldr (fun c acc => utf8Char c.toNat ++ acc) []

/-- Value of one hex digit, if the byte is one (`0-9a-fA-F`). -/
def hexDigitVal (b : Nat) : Option Nat :=
  if 48 ≤ b ∧ b ≤ 57 then some (b - 48)
  else if 97 ≤ b ∧ b ≤ 102 then some (b - 87)
  else if 65 ≤ b ∧ b ≤ 70 then some (b - 55)
  else none

/-- `Buffer.from(str, 'hex')`: decode hex pairs left to right, stopping at
the first invalid pair or at an odd trailing digit (Node is lenient and
never throws here). -/
def hexDecode : List Nat → List Nat
  | h :: l :: rest =>
    match hexDigitVal h, hexDigitVal l with
    | some hv, some lv => (16 * hv + lv) :: hexDecode rest
    | _, _ => []
  | _ => []

/-- Lowercase hex digit (as a byte) of a value < 16. -/
def hexChar (v : Nat) : Nat :=
  if v < 10 then 48 + v else 87 + v

/-- Lowercase hex encoding of bytes (`digest('hex')`), as ASCII bytes. -/
def hexEncode (bs : List Nat) : List Nat :=
  bs.foldr (fun b acc => hexChar (b / 16) :: hexChar (b % 16) :: acc) []

/-! ## SHA-256 over byte lists (pure `Nat` arithmetic mod `2 ^ 32`) -/

/-- Truncate to a 32-bit word. -/
def w32 (n : Nat) : Nat := n % 4294967296

/-- Right rotation of a 32-bit word. -/
def rotr (n x : Nat) : Nat := w32 ((x >>> n) ||| (x <<< (32 - n)))

def shCh (x y z : Nat) : Nat := (x &&& y) ^^^ ((x ^^^ 4294967295) &&& z)

def shMaj (x y z : Nat) : Nat := (x &&& y) ^^^ (x &&& z) ^^^ (y &&& z)

def bigSigma0 (x : Nat) : Nat := rotr 2 x ^^^ rotr 13 x ^^^ rotr 22 x

def bigSigma1 (x : Nat) : Nat := rotr 6 x ^^^ rotr 11 x ^^^ rotr 25 x

def smallSigma0 (x : Nat) : Nat := rotr 7 x ^^^ rotr 18 x ^^^ (x >>> 3)

def smallSigma1 (x : Nat) : Nat := rotr 17 x ^^^ rotr 19 x ^^^ (x >>> 10)

/-- The 64 SHA-256 round constants of FIPS 180-4 (in decimal). -/
def shaK : List Nat :=
  [1116352408, 1899447441, 3049323471, 3921009573,
   961987163, 1508970993, 2453635748, 2870763221,
   3624381080, 310598401, 607225278, 1426881987,
   1925078388, 2162078206, 2614888103, 3248222580,
   3835390401, 4022224774, 264347078, 604807628,
   770255983, 1249150122, 1555081692, 1996064986,
   2554220882, 2821834349, 2952996808, 3210313671,
   3336571891, 3584528711, 113926993, 338241895,
   666307205, 773529912, 1294757372, 1396182291,
   1695183700, 1986661051, 2177026350, 2456956037,
   2730485921, 2820302411, 3259730800, 3345764771,
   3516065817, 3600352804, 4094571909, 275423344,
   430227734, 506948616, 659060556, 883997877,
   958139571, 1322822218, 1537002063, 1747873779,
   1955562222, 2024104815, 2227730452, 2361852424,
   2428436474, 2756734187, 3204031479, 3329325298]

/-- The eight 32-bit working registers of SHA-256. -/
structure ShaState where
  a : Nat
  b : Nat
  c : Nat
  d : Nat
  e : Nat
  f : Nat
  g : Nat
  h : Nat

/-- Initial SHA-256 chaining values (in decimal). -/
def shaH0 : ShaState :=
  ⟨1779033703, 3144134277, 1013904242, 2773480762,
   1359893119, 2600822924, 528734635, 1541459225⟩

/-- SHA-256 message padding: append `0x80`, zero bytes to 56 mod 64, and
the bit length as 8 big-endian bytes. -/
def shaPad (msg : List Nat) : List Nat :=
  let l := msg.length
  let k := (64 - (l + 9) % 64) % 64
  let bitLen := 8 * l
  msg ++ 128 :: List.replicate k 0 ++
    [w32 (bitLen >>> 56) % 256, (bitLen >>> 48) % 256, (bitLen >>> 40) % 256,
     (bitLen >>> 32) % 256, (bitLen >>> 24) % 256, (bitLen >>> 16) % 256,
     (bitLen >>> 8) % 256, bitLen % 256]

/-- Split a byte list into chunks of `n` bytes (length assumed divisible). -/
def chunks (n : Nat) (l : List Nat) (fuel : Nat) : List (List Nat) :=
  match fuel with
  | 0 => []
  | fuel + 1 =>
    match l with
    | [] => []
    | _ => l.take n :: chunks n (l.drop n) fuel

/-- Big-endian 32-bit words from a 64-byte block. -/
def blockWords : List Nat → List Nat
  | b0 :: b1 :: b2 :: b3 :: rest =>
    (((b0 * 256 + b1) * 256 + b2) * 256 + b3) :: blockWords rest
  | _ => []

/-- Extend 16 message words to the 64-entry schedule. -/
def schedule (ws : List Nat) : List Nat :=
  (List.range 48).foldl
    (fun acc i =>
      let g := fun j => acc.getD j 0
      acc ++ [w32 (smallSigma1 (g (i + 14)) + g (i + 9) +
                   smallSigma0 (g (i + 1)) + g i)])
    ws

/-- One compression round. -/
def shaRound (st : ShaState) (kw : Nat × Nat) : ShaState :=
  let t1 := w32 (st.h + bigSigma1 st.e + shCh st.e st.f st.g + kw.1 + kw.2)
  let t2 := w32 (bigSigma0 st.a + shMaj st.a st.b st.c)
  { a := w32 (t1 + t2), b := st.a, c := st.b, d := st.c,
    e := w32 (st.d + t1), f := st.e, g := st.f, h := st.g }

/-- Compress one 64-byte block into the chaining state. -/
def shaCompress (st : ShaState) (block : List Nat) : ShaState :=
  let ws := schedule (blockWords block)
  let fin := (ws.zip shaK).foldl shaRound st
  { a := w32 (st.a + fin.a), b := w32 (st.b + fin.b),
    c := w32 (st.c + fin.c), d := w32 (st.d + fin.d),
    e := w32 (st.e + fin.e), f := w32 (st.f + fin.f),
    g := w32 (st.g + fin.g), h := w32 (st.h + fin.h) }

/-- Big-endian bytes of a 32-bit word. -/
def wordBytes (w : Nat) : List Nat :=
  [(w >>> 24) % 256, (w >>> 16) % 256, (w >>> 8) % 256, w % 256]

/-- SHA-256 digest (32 bytes) of a byte list. -/
def sha256 (msg : List Nat) : List Nat :=
  let padded := shaPad msg
  let final := (chunks 64 padded (padded.length + 1)).foldl shaCompress shaH0
  wordBytes final.a ++ wordBytes final.b ++ wordBytes final.c ++
  wordBytes final.d ++ wordBytes final.e ++ wordBytes final.f ++
  wordBytes final.g ++ wordBytes final.h

/-- HMAC-SHA-256 (`crypto.createHmac('sha256', key).update(msg)`). -/
def hmacSha256 (key msg : List Nat) : List Nat :=
  let k0 := if key.length > 64 then sha256 key else key
  let k := k0 ++ List.replicate (64 - k0.length) 0
  let ipad := k.map (fun b => b ^^^ 0x36)
  let opad := k.map (fun b => b ^^^ 0x5c)
  sha256 (opad ++ sha256 (ipad ++ msg))

/-! ## `URLSearchParams` (WHATWG query-string parsing), at byte level -/

/-- Percent-decode query bytes: `+` becomes a space and `%XX` the byte
`XX`; an invalid `%` sequence stays literal. -/
def percentDecode : List Nat → List Nat
  | [] => []
  | 43 :: rest => 32 :: percentDecode rest
  | 37 :: h :: l :: rest =>
    match hexDigitVal h, hexDigitVal l with
    | some hv, some lv => (16 * hv + lv) :: percentDecode rest
    | _, _ => 37 :: percentDecode (h :: l :: rest)
  | b :: rest => b :: percentDecode rest

/-- Split a byte list on a separator byte. -/
def splitOnByte (sep : Nat) (l : List Nat) : List (List Nat) :=
  l.foldr
    (fun b acc =>
      match acc with
      | cur :: done => if b = sep then [] :: cur :: done else (b :: cur) :: done
      | [] => [[b]])
    [[]]

/-- One `key=value` segment: split at the first `=` and percent-decode
both halves (a segment without `=` has an empty value). -/
def parseSegment (seg : List Nat) : List Nat × List Nat :=
  let key := seg.takeWhile (fun b => b ≠ 61)
  let rest := seg.dropWhile (fun b => b ≠ 61)
  (percentDecode key, percentDecode (rest.drop 1))

/-- `new URLSearchParams(initData)`: strip one leading `?`, split on `&`,
skip empty segments, and decode each `key=value` pair, in order. -/
def parseQuery (bytes : List Nat) : List (List Nat × List Nat) :=
  let stripped := match bytes with | 63 :: rest => rest | l => l
  ((splitOnByte 38 stripped).filter (fun s => s ≠ [])).map parseSegment

/-- `urlParams.get(name)`: value of the first pair with that key. -/
def getParam (params : List (List Nat × List Nat)) (name : List Nat) :
    Option (List Nat) :=
  (params.find? (fun p => p.1 = name)).map (·.2)

/-- `urlParams.delete(name)`: drop every pair with that key. -/
def deleteParam (params : List (List Nat × List Nat)) (name : List Nat) :
    List (List Nat × List Nat) :=
  params.filter (fun p => p.1 ≠ name)

/-- Strict lexicographic byte order on keys (the model of
`a.localeCompare(b)` for the ASCII keys in play). -/
def byteLexLt : List Nat → List Nat → Bool
  | [], [] => false
  | [], _ :: _ => true
  | _ :: _, [] => false
  | a :: as, b :: bs => if a < b then true else if b < a then false else byteLexLt as bs

/-- Insert a pair into a key-sorted list, after any pair of equal key
(keeps the sort stable, as `Array.prototype.sort` is). -/
def insertPair (p : List Nat × List Nat) :
    List (List Nat × List Nat) → List (List Nat × List Nat)
  | [] => [p]
  | q :: rest => if byteLexLt p.1 q.1 then p :: q :: rest else q :: insertPair p rest

/-- Stable sort of the pairs by key (`.sort(([a], [b]) => a.localeCompare(b))`). -/
def sortPairs (params : List (List Nat × List Nat)) :
    List (List Nat × List Nat) :=
  params.foldl (fun acc p => insertPair p acc) []

/-- Join byte lists with a separator byte between them. -/
def joinBytes (sep : Nat) : List (List Nat) → List Nat
  | [] => []
  | [x] => x
  | x :: rest => x ++ sep :: joinBytes sep rest

/-- The data-check string: sorted pairs joined as `key=value` lines. -/
def dataCheckString (params : List (List Nat × List Nat)) : List Nat :=
  joinBytes 10 ((sortPairs params).map (fun p => p.1 ++ 61 :: p.2))

/-! ## The signature verifier (`verifyTelegramWebAppData`) -/

/-- `crypto.timingSafeEqual` on two byte buffers: throws when the lengths
differ, otherwise compares. -/
def timingSafeEq (a b : List Nat) : Except String Bool :=
  if a.length ≠ b.length then Except.error "length mismatch"
  else Except.ok (a = b)

/-- The body of the `try` block of `verifyTelegramWebAppData`: parse the
pairs, take and remove `hash`, build the data-check string, derive the
secret key `HMAC-SHA256(key = 'WebAppData', msg = botToken)`, compute
`HMAC-SHA256(key = secretKey, msg = dataCheckString)` in hex, and compare
the two hex-decoded digests in constant time.  The only throwing step is
the final comparison. -/
def verifyInnerTelegram (initData botToken : String) : Except String Bool :=
  let urlParams := parseQuery (utf8 initData)
  match getParam urlParams (utf8 "hash") with
  | none => Except.ok false
  | some hash =>
    let remaining := deleteParam urlParams (utf8 "hash")
    let dcs := dataCheckString remaining
    let secretKey := hmacSha256 (utf8 "WebAppData") (utf8 botToken)
    let calculatedHash := hexEncode (hmacSha256 secretKey dcs)
    timingSafeEq (hexDecode hash) (hexDecode calculatedHash)

/-- `verifyTelegramWebAppData(initData, botToken)`: false on missing
inputs, and any exception inside the `try` collapses to false. -/
def verifyTelegramWebAppData (initData botToken : String) : Bool :=
  if initData = "" ∨ botToken = "" then false
  else
    match verifyInnerTelegram initData botToken with
    | Except.error _ => false
    | Except.ok b => b

/-! ## JavaScript values and `JSON.parse` -/

/-- A JavaScript value as the extractor sees one: `undef` is the JS
`undefined` (never produced by `JSON.parse`, but produced by property
access on an object that lacks the property). -/
inductive JsVal where
  | undef
  | null
  | bool (b : Bool)
  | num (q : ℚ)
  | str (s : List Nat)
  | arr (elems : List JsVal)
  | obj (fields : List (List Nat × JsVal))

/-- JSON whitespace. -/
def isJsonWs (b : Nat) : Bool := b = 32 ∨ b = 9 ∨ b = 10 ∨ b = 13

def skipWs (l : List Nat) : List Nat := l.dropWhile isJsonWs

def isDigitByte (b : Nat) : Bool := 48 ≤ b ∧ b ≤ 57

def digitsToNat (ds : List Nat) : Nat :=
  ds.foldl (fun acc d => 10 * acc + (d - 48)) 0

/-- Parse the digits/fraction/exponent of a JSON number (after an
optional leading `-` was stripped); rejects leading zeros. -/
def parseNumTail (bytes : List Nat) : Option (ℚ × List Nat) :=
  let ds := bytes.takeWhile isDigitByte
  let r1 := bytes.dropWhile isDigitByte
  if ds = [] then none
  else if ds.length > 1 ∧ ds.headD 0 = 48 then none
  else
    let intPart : ℚ := (digitsToNat ds : ℚ)
    let withFrac : Option (ℚ × List Nat) :=
      match r1 with
      | 46 :: r2 =>
        let fs := r2.takeWhile isDigitByte
        if fs = [] then none
        else some (intPart + (digitsToNat fs : ℚ) / ((10 : ℚ) ^ fs.length),
                   r2.dropWhile isDigitByte)
      | _ => some (intPart, r1)
    match withFrac with
    | none => none
    | some (q, r3) =>
      match r3 with
      | e :: r4 =>
        if e = 101 ∨ e = 69 then
          let (negExp, r5) :=
            match r4 with
            | 45 :: r5 => (true, r5)
            | 43 :: r5 => (false, r5)
            | r5 => (false, r5)
          let es := r5.takeWhile isDigitByte
          if es = [] then none
          else
            let ex := digitsToNat es
            some (if negExp then q / (10 : ℚ) ^ ex else q * (10 : ℚ) ^ ex,
                  r5.dropWhile isDigitByte)
        else some (q, r3)
      | [] => some (q, [])

/-- Parse a JSON string body (after the opening quote), handling escape
sequences; raw control characters are rejected as `JSON.parse` does. -/
def parseJsonStr : Nat → List Nat → Option (List Nat × List Nat)
  | 0, _ => none
  | _, 34 :: rest => some ([], rest)
  | fuel + 1, 92 :: e :: rest =>
    let simple : Option Nat :=
      if e = 34 then some 34 else if e = 92 then some 92
      else if e = 47 then some 47 else if e = 98 then some 8
      else if e = 102 then some 12 else if e = 110 then some 10
      else if e = 114 then some 13 else if e = 116 then some 9 else none
    (match simple, rest with
     | some b, _ =>
       (parseJsonStr fuel rest).map (fun p => (b :: p.1, p.2))
     | none, _ =>
       if e = 117 then
         match rest with
         | h1 :: h2 :: h3 :: h4 :: rest2 =>
           match hexDigitVal h1, hexDigitVal h2, hexDigitVal h3, hexDigitVal h4 with
           | some v1, some v2, some v3, some v4 =>
             let cp := ((v1 * 16 + v2) * 16 + v3) * 16 + v4
             (parseJsonStr fuel rest2).map (fun p => (utf8Char cp ++ p.1, p.2))
           | _, _, _, _ => none
         | _ => none
       else none)
  | fuel + 1, b :: rest =>
    if b < 32 then none
    else (parseJsonStr fuel rest).map (fun p => (b :: p.1, p.2))
  | _, [] => none

mutual

/-- Parse one JSON value. -/
def parseJsonVal : Nat → List Nat → Option (JsVal × List Nat)
  | 0, _ => none
  | fuel + 1, bytes =>
    match skipWs bytes with
    | 110 :: 117 :: 108 :: 108 :: rest => some (JsVal.null, rest)
    | 116 :: 114 :: 117 :: 101 :: rest => some (JsVal.bool true, rest)
    | 102 :: 97 :: 108 :: 115 :: 101 :: rest => some (JsVal.bool false, rest)
    | 34 :: rest =>
      (parseJsonStr (fuel + 1) rest).map (fun p => (JsVal.str p.1, p.2))
    | 91 :: rest =>
      (match skipWs rest with
       | 93 :: rest2 => some (JsVal.arr [], rest2)
       | _ =>
         (parseJsonElems fuel rest).map (fun p => (JsVal.arr p.1, p.2)))
    | 123 :: rest =>
      (match skipWs rest with
       | 125 :: rest2 => some (JsVal.obj [], rest2)
       | _ =>
         (parseJsonFields fuel rest).map (fun p => (JsVal.obj p.1, p.2)))
    | 45 :: rest =>
      (parseNumTail rest).map (fun p => (JsVal.num (-p.1), p.2))
    | other =>
      if other.headD 0 |> isDigitByte then
        (parseNumTail other).map (fun p => (JsVal.num p.1, p.2))
      else none

/-- Parse the elements of a non-empty JSON array, consuming the `]`. -/
def parseJsonElems : Nat → List Nat → Option (List JsVal × List Nat)
  | 0, _ => none
  | fuel + 1, bytes =>
    match parseJsonVal fuel bytes with
    | none => none
    | some (v, rest) =>
      match skipWs rest with
      | 44 :: rest2 =>
        (parseJsonElems fuel rest2).map (fun p => (v :: p.1, p.2))
      | 93 :: rest2 => some ([v], rest2)
      | _ => none

/-- Parse the members of a non-empty JSON object, consuming the `}`. -/
def parseJsonFields : Nat → List Nat →
    Option (List (List Nat × JsVal) × List Nat)
  | 0, _ => none
  | fuel + 1, bytes =>
    match skipWs bytes with
    | 34 :: rest =>
      (match parseJsonStr (fuel + 1) rest with
       | none => none
       | some (key, rest2) =>
         match skipWs rest2 with
         | 58 :: rest3 =>
           (match parseJsonVal fuel rest3 with
            | none => none
            | some (v, rest4) =>
              match skipWs rest4 with
              | 44 :: rest5 =>
                (parseJsonFields fuel rest5).map (fun p => ((key, v) :: p.1, p.2))
              | 125 :: rest5 => some ([(key, v)], rest5)
              | _ => none)
         | _ => none)
    | _ => none

end

/-- `JSON.parse` on bytes: one value, then only whitespace; `none` models
a thrown `SyntaxError`. -/
def jsonParse (bytes : List Nat) : Option JsVal :=
  match parseJsonVal (bytes.length + 1) bytes with
  | none => none
  | some (v, rest) => if skipWs rest = [] then some v else none

/-- JS property access `v.name`: throws on `null`/`undefined`, looks the
field up on objects (first occurrence, as `JSON.parse` keeps the last
duplicate — modelled with the parsed field list looked up left to right),
and yields `undefined` on every other value. -/
def jsGet (v : JsVal) (name : List Nat) : Except String JsVal :=
  match v with
  | JsVal.undef => Except.error "cannot read properties of undefined"
  | JsVal.null => Except.error "cannot read properties of null"
  | JsVal.obj fields =>
    Except.ok (((fields.reverse.find? (fun f => f.1 = name)).map (·.2)).getD JsVal.undef)
  | _ => Except.ok JsVal.undef

/-- JS truthiness of the values in play (`NaN` cannot arise from
`JSON.parse`). -/
def jsTruthy : JsVal → Bool
  | JsVal.undef => false
  | JsVal.null => false
  | JsVal.bool b => b
  | JsVal.num q => q ≠ 0
  | JsVal.str s => s ≠ []
  | JsVal.arr _ => true
  | JsVal.obj _ => true

/-- JS `a || b`. -/
def jsOr (a b : JsVal) : JsVal := if jsTruthy a then a else b

/-! ## The identity extractor (`extractTelegramUser`) -/

/-- The record `extractTelegramUser` builds; each field holds the JS
value the source assigns. -/
structure TgUser where
  telegramId : JsVal
  username : JsVal
  firstName : JsVal
  lastName : JsVal
  languageCode : JsVal
  isPremium : JsVal

/-- `extractTelegramUser(initData)`: `null` when `initData` or its `user`
parameter is missing or when anything inside the `try` throws; otherwise
the user record, with `||` defaults for the optional fields. -/
def extractTelegramUser (initData : String) : Option TgUser :=
  if initData = "" then none
  else
    let urlParams := parseQuery (utf8 initData)
    match getParam urlParams (utf8 "user") with
    | none => none
    | some userJson =>
      match jsonParse userJson with
      | none => none
      | some user =>
        match
          (do
            let id ← jsGet user (utf8 "id")
            let un ← jsGet user (utf8 "username")
            let fn ← jsGet user (utf8 "first_name")
            let ln ← jsGet user (utf8 "last_name")
            let lc ← jsGet user (utf8 "language_code")
            let pr ← jsGet user (utf8 "is_premium")
            Except.ok
              { telegramId := id
                username := jsOr un JsVal.null
                firstName := jsOr fn (JsVal.str [])
                lastName := jsOr ln (JsVal.str [])
                languageCode := jsOr lc (JsVal.str (utf8 "en"))
                isPremium := jsOr pr (JsVal.bool false) : TgUser }
            : Except String TgUser)
        with
        | Except.error _ => none
        | Except.ok u => some u

/-! ## The auth middleware (`telegramAuthMiddleware`) -/

/-- The environment variables the middleware reads (`process.env.X` is a
string or `undefined`). -/
structure Env where
  botToken : Option String := none
  nodeEnv : Option String := none
  skipTelegramVerify : Option String := none
  allowSessionAuth : Option String := none

/-- The request-body fields the middleware destructures. -/
structure AuthBody where
  initData : Option String := none
  sessionId : Option String := none

/-- JS truthiness of an optional string (`undefined` and `''` are falsy). -/
def truthyStr : Option String → Bool
  | none => false
  | some s => s ≠ ""

inductive AuthMethod where
  | telegram
  | session
deriving DecidableEq

/-- What the middleware does with the request: respond with an error
status, or attach the resolved identity and call `next()`. -/
inductive AuthOutcome where
  | respond (status : Nat) (error : String)
  | proceed (telegramUser : Option TgUser) (sessionId : Option String)
      (method : AuthMethod)

/-- Did the middleware pass the request on? -/
def AuthOutcome.isProceed : AuthOutcome → Bool
  | AuthOutcome.proceed _ _ _ => true
  | AuthOutcome.respond _ _ => false

/-- The status of a `respond` outcome (0 when the request proceeded). -/
def AuthOutcome.status : AuthOutcome → Nat
  | AuthOutcome.respond s _ => s
  | AuthOutcome.proceed _ _ _ => 0

/-- `telegramAuthMiddleware`: with `initData` present, verification runs
only when neither `NODE_ENV === 'development'` nor
`SKIP_TELEGRAM_VERIFY === 'true'`; then the user is extracted.  With only
`sessionId`, session auth must be allowed.  Otherwise 401. -/
def telegramAuthMiddleware (env : Env) (body : AuthBody) : AuthOutcome :=
  let isDev := env.nodeEnv = some "development"
  let skipVerify := env.skipTelegramVerify = some "true"
  let extracted :=
    match extractTelegramUser (body.initData.getD "") with
    | none => AuthOutcome.respond 400 "Could not extract user data"
    | some u => AuthOutcome.proceed (some u) none AuthMethod.telegram
  if truthyStr body.initData then
    if ¬isDev ∧ ¬skipVerify then
      if ¬truthyStr env.botToken then
        AuthOutcome.respond 500 "Server configuration error"
      else if ¬verifyTelegramWebAppData (body.initData.getD "")
                 (env.botToken.getD "") then
        AuthOutcome.respond 401 "Invalid Telegram authentication"
      else extracted
    else extracted
  else if truthyStr body.sessionId then
    let allowSessionAuth := isDev ∨ env.allowSessionAuth = some "true"
    if ¬allowSessionAuth then
      AuthOutcome.respond 401 "Session authentication not allowed in production"
    else AuthOutcome.proceed none body.sessionId AuthMethod.session
  else AuthOutcome.respond 401 "Authentication required"

/-! ## Configuration constants (`config/constants.js`) -/

namespace GAME

def MIN_DURATION_MS : Nat := 1000
def MAX_DURATION_MS : Nat := 3600000
def MAX_SCORE_PER_MINUTE : Nat := 100000
def MAX_HITS_PER_MINUTE : Nat := 120
def MAX_COMBO : Nat := 100
def MAX_SCORE : Nat := 10000000

end GAME

namespace PAGINATION

def DEFAULT_LIMIT : Nat := 10
def MAX_LIMIT : Nat := 100

end PAGINATION

/-! ## The relational store

The MySQL schema (`users` with unique `session_id` and unique nullable
`telegram_id`; `scores` with a foreign key to `users`) is modelled as
in-memory lists; `created_at` is a monotone counter (each score row's
`createdAt` is its insertion rank, so later rows are more recent), and
`UUID()` is a fresh value from a counter. -/

structure UserRow where
  id : Nat
  sessionId : String
  username : Option String := none
  telegramId : Option Nat := none
deriving DecidableEq

structure ScoreRow where
  id : Nat
  userId : Nat
  score : Nat
  targetsHit : Nat
  shotsFired : Nat
  accuracy : ℚ
  maxCombo : Nat
  durationMs : Nat
  gameMode : String
  createdAt : Nat
deriving DecidableEq

structure Db where
  users : List UserRow := []
  scores : List ScoreRow := []
  nextUserId : Nat := 1
  nextScoreId : Nat := 1
  nextUuid : Nat := 1
deriving DecidableEq

inductive DbErr where
  | dupKey
deriving DecidableEq

/-- `SELECT … FROM users WHERE telegram_id = ?` (first row). -/
def findUserByTelegram (db : Db) (tid : Nat) : Option UserRow :=
  db.users.find? (fun u => u.telegramId = some tid)

/-- `SELECT … FROM users WHERE session_id = ?` (first row). -/
def findUserBySession (db : Db) (sid : String) : Option UserRow :=
  db.users.find? (fun u => u.sessionId = sid)

/-- The value `UUID()` generates on the n-th call. -/
def mkUuid (n : Nat) : String := "uuid-" ++ toString n

/-- A plain `INSERT INTO users …`: raises a duplicate-key error when a
unique key (`session_id`, or a non-null `telegram_id`) already exists. -/
def insertUserRow (db : Db) (sessionId : String) (username : Option String)
    (telegramId : Option Nat) : Except DbErr (Db × Nat) :=
  if db.users.any (fun u =>
      u.sessionId = sessionId ∨ (telegramId ≠ none ∧ u.telegramId = telegramId))
  then Except.error DbErr.dupKey
  else
    Except.ok
      ({ db with
          users := db.users ++
            [{ id := db.nextUserId, sessionId := sessionId,
               username := username, telegramId := telegramId }]
          nextUserId := db.nextUserId + 1 },
       db.nextUserId)

/-- The creation step of `POST /api/scores` for a Telegram identity:
`INSERT INTO users (telegram_id, session_id) VALUES (?, UUID())` — a
plain insert, no conflict clause. -/
def createUserByTelegramScores (tid : Nat) (db : Db) : Except DbErr (Db × Nat) :=
  insertUserRow { db with nextUuid := db.nextUuid + 1 } (mkUuid db.nextUuid)
    none (some tid)

/-- The creation step of `POST /api/scores` for a session identity:
`INSERT INTO users (session_id) VALUES (?)` — a plain insert. -/
def createUserBySessionScores (sid : String) (db : Db) : Except DbErr (Db × Nat) :=
  insertUserRow db sid none none

/-- The creation step of `POST /api/auth/telegram`:
`INSERT … ON DUPLICATE KEY UPDATE username = VALUES(username), …`
followed by a re-read of the canonical row by `telegram_id`. -/
def createUserByTelegramAuth (tid : Nat) (username : Option String) (db : Db) :
    Except DbErr (Db × Option Nat) :=
  let upserted : Except DbErr Db :=
    if db.users.any (fun u => u.telegramId = some tid) then
      Except.ok
        { db with
            nextUuid := db.nextUuid + 1
            users := db.users.map (fun u =>
              if u.telegramId = some tid then { u with username := username }
              else u) }
    else
      (insertUserRow { db with nextUuid := db.nextUuid + 1 }
        (mkUuid db.nextUuid) username (some tid)).map (·.1)
  match upserted with
  | Except.error e => Except.error e
  | Except.ok db2 => Except.ok (db2, (findUserByTelegram db2 tid).map (·.id))

/-- `INSERT INTO scores …`; `created_at` is the insertion counter. -/
def insertScore (db : Db) (userId score targetsHit shotsFired : Nat)
    (accuracy : ℚ) (maxCombo durationMs : Nat) (gameMode : String) : Db × Nat :=
  ({ db with
      scores := db.scores ++
        [{ id := db.nextScoreId, userId := userId, score := score,
           targetsHit := targetsHit, shotsFired := shotsFired,
           accuracy := accuracy, maxCombo := maxCombo,
           durationMs := durationMs, gameMode := gameMode,
           createdAt := db.nextScoreId }]
      nextScoreId := db.nextScoreId + 1 },
   db.nextScoreId)

/-! ## The result validator (`validateGameResult`) -/

/-- The request body of `POST /api/scores` as the validator sees it
(JSON numbers as `Int`; a missing field is `none`). -/
structure RawScoreBody where
  sessionId : Option String := none
  telegramId : Option Int := none
  score : Option Int := none
  targetsHit : Option Int := none
  shotsFired : Option Int := none
  maxCombo : Option Int := none
  durationMs : Option Int := none
  gameMode : Option String := none
  initData : Option String := none

/-- `validator.isUUID(4)`:
`[0-9a-f]{8}-[0-9a-f]{4}-4[0-9a-f]{3}-[89ab][0-9a-f]{3}-[0-9a-f]{12}`,
case-insensitive. -/
def isUuidV4 (s : String) : Bool :=
  let cs := s.data
  let isHex := fun (c : Char) =>
    (hexDigitVal c.toNat).isSome
  cs.length = 36 ∧
  (List.range 36).all (fun i =>
    let c := cs.getD i ' '
    if i = 8 ∨ i = 13 ∨ i = 18 ∨ i = 23 then c = '-'
    else if i = 14 then c = '4'
    else if i = 19 then
      c = '8' ∨ c = '9' ∨ c = 'a' ∨ c = 'b' ∨ c = 'A' ∨ c = 'B'
    else isHex c)

/-- An integer range check of a required field, `body(f).isInt({min, max})`. -/
def intInRange (v : Option Int) (mn mx : Int) : Bool :=
  match v with
  | none => false
  | some n => mn ≤ n ∧ n ≤ mx

/-- The validation-chain errors of `validateGameResult`, collected in
chain order (express-validator runs every chain, then
`handleValidationErrors` rejects when any failed). -/
def gameResultFieldErrors (b : RawScoreBody) : List String :=
  (match b.sessionId with
   | some s => if isUuidV4 s then [] else ["sessionId"]
   | none => []) ++
  (match b.telegramId with
   | some t => if 1 ≤ t then [] else ["telegramId"]
   | none => []) ++
  (if intInRange b.score 0 (GAME.MAX_SCORE : Int) then [] else ["score"]) ++
  (if intInRange b.targetsHit 0 10000 then [] else ["targetsHit"]) ++
  (if intInRange b.shotsFired 0 50000 then [] else ["shotsFired"]) ++
  (if intInRange b.maxCombo 1 (GAME.MAX_COMBO : Int) then [] else ["maxCombo"]) ++
  (if intInRange b.durationMs (GAME.MIN_DURATION_MS : Int)
      (GAME.MAX_DURATION_MS : Int) then [] else ["durationMs"]) ++
  (match b.gameMode with
   | some m =>
     if m = "endless" ∨ m = "timed" ∨ m = "accuracy" ∨ m = "survival"
     then [] else ["gameMode"]
   | none => [])

/-- The numeric payload after the chain passed (`.toInt()` applied). -/
structure GameResult where
  score : Nat
  targetsHit : Nat
  shotsFired : Nat
  maxCombo : Nat
  durationMs : Nat
  gameMode : Option String := none
deriving DecidableEq

def RawScoreBody.toGameResult (b : RawScoreBody) : GameResult :=
  { score := (b.score.getD 0).toNat
    targetsHit := (b.targetsHit.getD 0).toNat
    shotsFired := (b.shotsFired.getD 0).toNat
    maxCombo := (b.maxCombo.getD 0).toNat
    durationMs := (b.durationMs.getD 0).toNat
    gameMode := b.gameMode }

/-- The distinct rejection categories of the anti-cheat middleware. -/
inductive Rejection where
  | rateScore
  | rateHits
  | hitsExceedShots
deriving DecidableEq

/-- The anti-cheat middleware at the end of `validateGameResult`: with
`durationMs >= 10000` (and a positive duration in minutes), the
score-per-minute ceiling is checked first, then the hits-per-minute
ceiling; the hits-vs-shots consistency check runs after that block. -/
def antiCheatCheck (g : GameResult) : Option Rejection :=
  let durationMin : ℚ := (g.durationMs : ℚ) / 60000
  let consistency : Option Rejection :=
    if g.shotsFired > 0 ∧ g.targetsHit > g.shotsFired then
      some Rejection.hitsExceedShots
    else none
  if g.durationMs ≥ 10000 ∧ durationMin > 0 then
    if (g.score : ℚ) / durationMin > (GAME.MAX_SCORE_PER_MINUTE : ℚ) then
      some Rejection.rateScore
    else if (g.targetsHit : ℚ) / durationMin > (GAME.MAX_HITS_PER_MINUTE : ℚ) then
      some Rejection.rateHits
    else consistency
  else consistency

/-- The whole `validateGameResult` middleware stack. -/
inductive ValidationOutcome where
  | ok (g : GameResult)
  | invalid (fields : List String)
  | rejected (r : Rejection)
deriving DecidableEq

def validateGameResult (b : RawScoreBody) : ValidationOutcome :=
  let errs := gameResultFieldErrors b
  if errs ≠ [] then ValidationOutcome.invalid errs
  else
    let g := b.toGameResult
    match antiCheatCheck g with
    | some r => ValidationOutcome.rejected r
    | none => ValidationOutcome.ok g

/-! ## `POST /api/scores` -/

inductive PostScoresResp where
  | created (scoreId : Nat) (rank : Nat) (score : Nat) (targetsHit : Nat)
      (accuracyPct : ℤ) (maxCombo : Nat)
  | validationFailed (fields : List String)
  | antiCheatRejected (r : Rejection)
  | missingId
  | serverError
deriving DecidableEq

/-- The HTTP status each response carries. -/
def PostScoresResp.status : PostScoresResp → Nat
  | PostScoresResp.created _ _ _ _ _ _ => 201
  | PostScoresResp.validationFailed _ => 400
  | PostScoresResp.antiCheatRejected _ => 400
  | PostScoresResp.missingId => 400
  | PostScoresResp.serverError => 500

/-- The rank a successful (201) response reports, if any. -/
def PostScoresResp.rank? : PostScoresResp → Option Nat
  | PostScoresResp.created _ rank _ _ _ _ => some rank
  | _ => none

/-- The tail of the `POST /api/scores` handler once a user id is
resolved: compute the accuracy, store the result row, and answer 201
with `rank = COUNT(*) + 1` over the score rows (now including the new
one) whose score strictly exceeds the submitted one. -/
def storeAndRank (b : RawScoreBody) (g : GameResult) (db1 : Db)
    (userId : Nat) : PostScoresResp × Db :=
  let accuracy : ℚ :=
    if g.shotsFired > 0 then (g.targetsHit : ℚ) / (g.shotsFired : ℚ) else 0
  let (db2, scoreId) :=
    insertScore db1 userId g.score g.targetsHit g.shotsFired accuracy
      g.maxCombo g.durationMs (b.gameMode.getD "endless")
  let rank := 1 + db2.scores.countP (fun r => r.score > g.score)
  (PostScoresResp.created scoreId rank g.score g.targetsHit
     (round (accuracy * 100)) g.maxCombo, db2)

/-- The route handler of `POST /api/scores` (after validation): pick the
identity from the body — `telegramId` first, else `sessionId` — look the
user up, create it with a plain insert when absent, store the result,
and answer 201 with the computed rank.  A thrown database error goes to
`next(error)` (a 500). -/
def postScoresHandler (b : RawScoreBody) (g : GameResult) (db : Db) :
    PostScoresResp × Db :=
  let finish := storeAndRank b g
  match b.telegramId with
  | some t =>
    if t ≠ 0 then
      let tid := t.toNat
      match findUserByTelegram db tid with
      | some u => finish db u.id
      | none =>
        match createUserByTelegramScores tid db with
        | Except.error _ => (PostScoresResp.serverError, db)
        | Except.ok (db1, uid) => finish db1 uid
    else
      match b.sessionId with
      | some sid =>
        if sid ≠ "" then
          match findUserBySession db sid with
          | some u => finish db u.id
          | none =>
            match createUserBySessionScores sid db with
            | Except.error _ => (PostScoresResp.serverError, db)
            | Except.ok (db1, uid) => finish db1 uid
        else (PostScoresResp.missingId, db)
      | none => (PostScoresResp.missingId, db)
  | none =>
    match b.sessionId with
    | some sid =>
      if sid ≠ "" then
        match findUserBySession db sid with
        | some u => finish db u.id
        | none =>
          match createUserBySessionScores sid db with
          | Except.error _ => (PostScoresResp.serverError, db)
          | Except.ok (db1, uid) => finish db1 uid
      else (PostScoresResp.missingId, db)
    | none => (PostScoresResp.missingId, db)

/-- The full `POST /api/scores` pipeline as mounted:
`createScoreLimiter()` (stateful rate limiting, outside this model),
then `validateGameResult`, then the handler.  No authentication
middleware is in the chain. -/
def postScores (b : RawScoreBody) (db : Db) : PostScoresResp × Db :=
  match validateGameResult b with
  | ValidationOutcome.invalid fs => (PostScoresResp.validationFailed fs, db)
  | ValidationOutcome.rejected r => (PostScoresResp.antiCheatRejected r, db)
  | ValidationOutcome.ok g => postScoresHandler b g db

/-! ## `GET /api/scores/leaderboard` -/

/-- `parseInt(value, 10)`: skip leading whitespace, take an optional
sign and then leading decimal digits; `NaN` (here `none`) when no digit
follows.  `parseInt(undefined)` is `NaN`. -/
def parseIntJs (value : Option String) : Option Int :=
  match value with
  | none => none
  | some s =>
    let bytes := (utf8 s).dropWhile (fun b => b = 32 ∨ b = 9 ∨ b = 10 ∨ b = 13)
    let (neg, rest) :=
      match bytes with
      | 45 :: r => (true, r)
      | 43 :: r => (false, r)
      | r => (false, r)
    let ds := rest.takeWhile isDigitByte
    if ds = [] then none
    else
      let n : Int := (digitsToNat ds : Int)
      some (if neg then -n else n)

/-- `getSafeInt(value, defaultVal, min, max)` from `routes/scores.js`:
the parsed number when it lies in `[min, max]`, the default otherwise. -/
def getSafeInt (value : Option String) (defaultVal mn mx : Int) : Int :=
  match parseIntJs value with
  | none => defaultVal
  | some num => if num < mn ∨ num > mx then defaultVal else num

/-- The ranking dimension a leaderboard type orders by (`score`,
`targets_hit` or `accuracy`). -/
def rowDim (t : String) (r : ScoreRow) : ℚ :=
  if t = "hits" then (r.targetsHit : ℚ)
  else if t = "accuracy" then r.accuracy
  else (r.score : ℚ)

/-- Does a row satisfy the extra leaderboard filter of the type
(`shots_fired >= 10` for accuracy)? -/
def rowEligible (t : String) (r : ScoreRow) : Bool :=
  if t = "accuracy" then r.shotsFired ≥ 10 else true

/-- One step of the per-user best-row selection: keep the row that wins
on `(dimension, created_at)` lexicographically, the earlier row on a
full tie. -/
def pickBetter (t : String) (acc : Option ScoreRow) (r : ScoreRow) :
    Option ScoreRow :=
  match acc with
  | none => some r
  | some b =>
    if rowDim t r > rowDim t b ∨
       (rowDim t r = rowDim t b ∧ r.createdAt > b.createdAt)
    then some r else some b

/-- The inner subquery `SELECT s2.id … ORDER BY dim DESC, created_at
DESC LIMIT 1` over one user's (eligible) rows. -/
def bestRowOf (t : String) (rows : List ScoreRow) : Option ScoreRow :=
  rows.foldl (pickBetter t) none

/-- `b` is at least as good as `s` on the ranking dimension, with the
created-at tie-break: the order the per-user subquery maximises. -/
def lexGe (t : String) (b s : ScoreRow) : Prop :=
  rowDim t s < rowDim t b ∨
  (rowDim t s = rowDim t b ∧ s.createdAt ≤ b.createdAt)

/-- The `WHERE` clause of the leaderboard query: the row is eligible and
its id is the one the per-user subquery picks. -/
def isLeaderRow (t : String) (scores : List ScoreRow) (r : ScoreRow) : Bool :=
  rowEligible t r ∧
  (bestRowOf t (scores.filter
      (fun s => s.userId = r.userId ∧ rowEligible t s))).map (·.id) = some r.id

/-- Stable descending insertion on the dimension (`ORDER BY dim DESC`;
MySQL leaves equal keys in an unspecified order — the model keeps them
stable). -/
def insertRowDesc (t : String) (r : ScoreRow) :
    List ScoreRow → List ScoreRow
  | [] => [r]
  | q :: rest =>
    if rowDim t q < rowDim t r then r :: q :: rest
    else q :: insertRowDesc t r rest

def sortRowsDesc (t : String) (rows : List ScoreRow) : List ScoreRow :=
  rows.foldl (fun acc r => insertRowDesc t r acc) []

/-- The leaderboard whitelist fallback: an allowed `type` is kept, any
other (or a missing) query value falls back to `'score'`. -/
def leaderboardType (qtype : Option String) : String :=
  match qtype with
  | some s => if s = "score" ∨ s = "hits" ∨ s = "accuracy" then s else "score"
  | none => "score"

/-- The rows `GET /api/scores/leaderboard` returns: the per-user best
rows, ordered descending on the dimension, paginated with
`LIMIT limitNum OFFSET offsetNum`. -/
def leaderboardRows (db : Db) (qtype qlimit qoffset : Option String) :
    List ScoreRow :=
  let t := leaderboardType qtype
  let limitNum := getSafeInt qlimit (PAGINATION.DEFAULT_LIMIT : Int) 1
    (PAGINATION.MAX_LIMIT : Int)
  let offsetNum := getSafeInt qoffset 0 0 100000
  ((sortRowsDesc t (db.scores.filter (isLeaderRow t db.scores))).drop
      offsetNum.toNat).take limitNum.toNat

/-! ## Profile rank (`GET /api/scores/user/:sessionId`) -/

/-- `COALESCE((SELECT MAX(score) FROM scores WHERE user_id = ?), 0)`. -/
def bestScoreOf (scores : List ScoreRow) (uid : Nat) : Nat :=
  (scores.filter (fun r => r.userId = uid)).foldl (fun m r => max m r.score) 0

/-- The distinct user ids appearing in `scores` (`GROUP BY user_id`). -/
def scoreUserIds (scores : List ScoreRow) : List Nat :=
  (scores.map (fun r => r.userId)).dedup

/-- The rank query of the profile endpoints: `1 +` the number of users
whose best score strictly exceeds this user's best score. -/
def profileRank (db : Db) (uid : Nat) : Nat :=
  1 + ((scoreUserIds db.scores).filter
    (fun u => bestScoreOf db.scores u > bestScoreOf db.scores uid)).length

/-! ## The verifier as the spec words it (for claim C4) -/

/-- The verification algorithm exactly as the spec sentence describes
it: identical pipeline to `verifyTelegramWebAppData`, except that the
secondary key is derived by keyed-hashing the fixed domain-separation
constant string **using the shared secret as the key** — the code does
the converse (constant as key, secret as message). -/
def verifySpecWorded (initData botToken : String) : Bool :=
  if initData = "" ∨ botToken = "" then false
  else
    let urlParams := parseQuery (utf8 initData)
    match getParam urlParams (utf8 "hash") with
    | none => false
    | some hash =>
      let remaining := deleteParam urlParams (utf8 "hash")
      let dcs := dataCheckString remaining
      let secretKey := hmacSha256 (utf8 botToken) (utf8 "WebAppData")
      let calculatedHash := hexEncode (hmacSha256 secretKey dcs)
      match timingSafeEq (hexDecode hash) (hexDecode calculatedHash) with
      | Except.error _ => false
      | Except.ok b => b

/-! ## Concrete fixtures used by the witnesses and counterexamples -/

/-- The hex digest `HMAC(HMAC('WebAppData', 'T'), 'a=1\nuser=x')`. -/
def signedHashHex : String :=
  "ae07acb97af2d97291b308c6553586e283ed96fc0d2c9b993d686a3ea8ee2d7c"

/-- A payload correctly signed (per the code's algorithm) for the bot
token `"T"`: the data-check string is `a=1\nuser=x`. -/
def signedInitData : String := "a=1&user=x&hash=" ++ signedHashHex

/-- A payload whose `hash` value decodes to a single byte. -/
def shortHashInitData : String := "a=1&hash=00"

/-- A payload with no `hash` field at all. -/
def noHashInitData : String := "a=1"

/-- A forged payload: a well-formed `user` object but a signature that
cannot verify (it decodes to one byte). -/
def forgedInitData : String := "user=\x7b\x22id\x22:1\x7d&hash=00"

/-- `initData` whose `user` JSON is the empty object: no `id` field. -/
def emptyObjInitData : String := "user=\x7b\x7d"

/-- `initData` whose `user` value is not valid JSON. -/
def badJsonInitData : String := "user=nope"

/-- A production environment with the verification-skip flag set. -/
def prodSkipEnv : Env :=
  { botToken := some "T", nodeEnv := some "production",
    skipTelegramVerify := some "true" }

/-- A production environment with the skip flag unset. -/
def prodEnv : Env := { botToken := some "T", nodeEnv := some "production" }

/-- A syntactically valid v4 session id. -/
def sid4 : String := "123e4567-e89b-42d3-a456-426614174000"

/-- A valid score submission authenticated only by a session id. -/
def sessionScoreBody : RawScoreBody :=
  { sessionId := some sid4, score := some 100, targetsHit := some 5,
    shotsFired := some 10, maxCombo := some 3, durationMs := some 30000 }

/-- A valid score submission carrying no identity at all. -/
def noIdBody : RawScoreBody :=
  { score := some 10, targetsHit := some 1, shotsFired := some 2,
    maxCombo := some 1, durationMs := some 30000 }

/-- A store already holding the user row a concurrent request created
for Telegram id 5. -/
def dbOneTelegramUser : Db :=
  { users := [{ id := 1, sessionId := "uuid-1", telegramId := some 5 }],
    nextUserId := 2, nextUuid := 2 }

/-- Two users; user 1 holds two stored results of score 20 each. -/
def dbTwoUsers : Db :=
  { users := [{ id := 1, sessionId := "s1" }, { id := 2, sessionId := "s2" }],
    scores :=
      [{ id := 1, userId := 1, score := 20, targetsHit := 2, shotsFired := 4,
         accuracy := mkRat 1 2, maxCombo := 1, durationMs := 30000,
         gameMode := "endless", createdAt := 1 },
       { id := 2, userId := 1, score := 20, targetsHit := 2, shotsFired := 4,
         accuracy := mkRat 1 2, maxCombo := 1, durationMs := 30000,
         gameMode := "endless", createdAt := 2 }],
    nextUserId := 3, nextScoreId := 3, nextUuid := 1 }

/-- A submission of score 10 by user 2 (session `s2`). -/
def profileProbeBody : RawScoreBody :=
  { sessionId := some "s2", score := some 10, targetsHit := some 1,
    shotsFired := some 2, maxCombo := some 1, durationMs := some 30000 }

/-- A payload violating both the hits-vs-shots consistency rule
(100 > 50) and the score-rate ceiling (10 M per minute). -/
def doubleViolationBody : RawScoreBody :=
  { score := some 10000000, targetsHit := some 100, shotsFired := some 50,
    maxCombo := some 10, durationMs := some 60000 }

/-- 100 000 points in 5 s: under the anti-cheat duration threshold. -/
def shortBurstBody : RawScoreBody :=
  { score := some 100000, targetsHit := some 50, shotsFired := some 100,
    maxCombo := some 10, durationMs := some 5000 }

/-- The same score over 20 s: above the threshold, rate-implausible. -/
def longBurstBody : RawScoreBody :=
  { score := some 100000, targetsHit := some 50, shotsFired := some 100,
    maxCombo := some 10, durationMs := some 20000 }

end GameServer

namespace GameServer

/-! # Theorems -/

unseal Rat.mul Rat.inv in
/-- **C5** — counterexample.  The claim says the consistency check
("hits exceed shots") runs before the anti-cheat rate checks, so a
payload violating both must be rejected with the consistency category.
On this payload — in range, hits 100 > shots 50, and 10 000 000 points
per minute — the code rejects with the score-rate category instead. -/
theorem consistency_after_rate_counterexample :
    gameResultFieldErrors doubleViolationBody = [] ∧
    doubleViolationBody.toGameResult.shotsFired > 0 ∧
    doubleViolationBody.toGameResult.targetsHit >
      doubleViolationBody.toGameResult.shotsFired ∧
    (doubleViolationBody.toGameResult.score : ℚ) /
        ((doubleViolationBody.toGameResult.durationMs : ℚ) / 60000) >
      (GAME.MAX_SCORE_PER_MINUTE : ℚ) ∧
    validateGameResult doubleViolationBody =
      ValidationOutcome.rejected Rejection.rateScore ∧
    validateGameResult doubleViolationBody ≠
      ValidationOutcome.rejected Rejection.hitsExceedShots := by
  decide

/-- **C5** — amended.  The validator short-circuits, but the anti-cheat
rate checks run before the hits-vs-shots consistency check: whenever the
field validation passes, the duration reaches the anti-cheat threshold
and the score-per-minute rate exceeds the ceiling, the payload is
rejected with the score-rate category — even if it also violates the
consistency rule. -/
theorem anticheat_rate_checked_before_consistency (b : RawScoreBody)
    (he : gameResultFieldErrors b = [])
    (hd : b.toGameResult.durationMs ≥ 10000)
    (hs : (b.toGameResult.score : ℚ) /
        ((b.toGameResult.durationMs : ℚ) / 60000) >
      (GAME.MAX_SCORE_PER_MINUTE : ℚ)) :
    validateGameResult b = ValidationOutcome.rejected Rejection.rateScore := by
  have hpos : ((b.toGameResult.durationMs : ℚ) / 60000) > 0 := by
    apply div_pos _ (by norm_num)
    have h1 : (10000 : ℚ) ≤ (b.toGameResult.durationMs : ℚ) := by
      exact_mod_cast hd
    linarith
  have hac : antiCheatCheck b.toGameResult = some Rejection.rateScore := by
    unfold antiCheatCheck
    rw [if_pos ⟨hd, hpos⟩, if_pos hs]
  unfold validateGameResult
  rw [he]
  simp [hac]

unseal Rat.mul Rat.inv in
theorem anticheat_rate_checked_before_consistency_witness :
    gameResultFieldErrors doubleViolationBody = [] ∧
    doubleViolationBody.toGameResult.durationMs ≥ 10000 ∧
    (doubleViolationBody.toGameResult.score : ℚ) /
        ((doubleViolationBody.toGameResult.durationMs : ℚ) / 60000) >
      (GAME.MAX_SCORE_PER_MINUTE : ℚ) ∧
    validateGameResult doubleViolationBody =
      ValidationOutcome.rejected Rejection.rateScore :=
  ⟨by decide, by decide, by decide,
   anticheat_rate_checked_before_consistency doubleViolationBody
     (by decide) (by decide) (by decide)⟩

/-- **C6** — confirmed.  The anti-cheat rate checks apply only from the
10 000 ms duration threshold on: any in-range payload with score 100 000
over 5 000 ms that satisfies the consistency rule is accepted although
its score-per-minute (1.2 M) exceeds the ceiling, while any in-range
payload with the same score over 20 000 ms (300 k per minute) is
rejected as rate-implausible. -/
theorem anticheat_duration_threshold (b1 b2 : RawScoreBody)
    (he1 : gameResultFieldErrors b1 = [])
    (hs1 : b1.score = some 100000) (hd1 : b1.durationMs = some 5000)
    (hc1 : ¬(b1.toGameResult.shotsFired > 0 ∧
      b1.toGameResult.targetsHit > b1.toGameResult.shotsFired))
    (he2 : gameResultFieldErrors b2 = [])
    (hs2 : b2.score = some 100000) (hd2 : b2.durationMs = some 20000) :
    (100000 : ℚ) / ((5000 : ℚ) / 60000) > (GAME.MAX_SCORE_PER_MINUTE : ℚ) ∧
    validateGameResult b1 = ValidationOutcome.ok b1.toGameResult ∧
    validateGameResult b2 = ValidationOutcome.rejected Rejection.rateScore := by
  have hdur1 : b1.toGameResult.durationMs = 5000 := by
    simp [RawScoreBody.toGameResult, hd1]
  refine ⟨by unfold GAME.MAX_SCORE_PER_MINUTE; norm_num, ?_, ?_⟩
  · have hcond : ¬(b1.toGameResult.durationMs ≥ 10000 ∧
        ((b1.toGameResult.durationMs : ℚ) / 60000) > 0) := by
      intro hand
      rw [hdur1] at hand
      omega
    have hac : antiCheatCheck b1.toGameResult = none := by
      simp only [antiCheatCheck]
      rw [if_neg hcond, if_neg hc1]
    unfold validateGameResult
    rw [he1]
    simp [hac]
  · apply anticheat_rate_checked_before_consistency b2 he2
    · simp [RawScoreBody.toGameResult, hd2]
    · have hsc : b2.toGameResult.score = 100000 := by
        simp [RawScoreBody.toGameResult, hs2]
      have hdu : b2.toGameResult.durationMs = 20000 := by
        simp [RawScoreBody.toGameResult, hd2]
      rw [hsc, hdu]
      unfold GAME.MAX_SCORE_PER_MINUTE
      norm_num

unseal Rat.mul Rat.inv in
theorem anticheat_duration_threshold_witness :
    (gameResultFieldErrors shortBurstBody = [] ∧
     gameResultFieldErrors longBurstBody = []) ∧
    validateGameResult shortBurstBody =
      ValidationOutcome.ok shortBurstBody.toGameResult ∧
    validateGameResult longBurstBody =
      ValidationOutcome.rejected Rejection.rateScore :=
  ⟨⟨by decide, by decide⟩,
   (anticheat_duration_threshold shortBurstBody longBurstBody
     (by decide) (by decide) (by decide) (by decide)
     (by decide) (by decide) (by decide)).2.1,
   (anticheat_duration_threshold shortBurstBody longBurstBody
     (by decide) (by decide) (by decide) (by decide)
     (by decide) (by decide) (by decide)).2.2⟩

/-! ## Digest lemmas -/

theorem sha256_length (msg : List Nat) : (sha256 msg).length = 32 := by
  simp [sha256, wordBytes]

theorem sha256_mem_lt (msg : List Nat) : ∀ x ∈ sha256 msg, x < 256 := by
  intro x hx
  simp [sha256, wordBytes] at hx
  rcases hx with h | h | h | h | h | h | h | h <;> omega

theorem hmacSha256_length (key msg : List Nat) :
    (hmacSha256 key msg).length = 32 := by
  unfold hmacSha256
  exact sha256_length _

theorem hmacSha256_mem_lt (key msg : List Nat) :
    ∀ x ∈ hmacSha256 key msg, x < 256 := by
  unfold hmacSha256
  exact sha256_mem_lt _

theorem hexDigitVal_hexChar (v : Nat) (hv : v < 16) :
    hexDigitVal (hexChar v) = some v := by
  unfold hexChar hexDigitVal
  by_cases h : v < 10
  · rw [if_pos h, if_pos ⟨by omega, by omega⟩]
    congr 1
    omega
  · rw [if_neg h]
    rw [if_neg (by omega), if_pos ⟨by omega, by omega⟩]
    congr 1
    omega

theorem hexDecode_hexEncode (bs : List Nat) (hb : ∀ x ∈ bs, x < 256) :
    hexDecode (hexEncode bs) = bs := by
  induction bs with
  | nil => rfl
  | cons b rest ih =>
    have hb256 : b < 256 := hb b (List.mem_cons_self b rest)
    have h1 : b / 16 < 16 := by omega
    have h2 : b % 16 < 16 := by omega
    have hrw : hexEncode (b :: rest) =
        hexChar (b / 16) :: hexChar (b % 16) :: hexEncode rest := rfl
    rw [hrw, hexDecode, hexDigitVal_hexChar _ h1, hexDigitVal_hexChar _ h2]
    simp only []
    rw [ih (fun x hx => hb x (List.mem_cons_of_mem b hx))]
    congr 1
    omega

/-- The computed hex digest decodes back to the 32 digest bytes. -/
theorem hexDecode_hexEncode_hmac (key msg : List Nat) :
    hexDecode (hexEncode (hmacSha256 key msg)) = hmacSha256 key msg :=
  hexDecode_hexEncode _ (hmacSha256_mem_lt key msg)

/-- **C7** — confirmed.  The signature verifier returns invalid — and
never throws past its boundary — when the payload is missing, the shared
secret is missing, the `hash` field is absent, or the provided hex
signature decodes to a byte length other than the digest's 32 (the
throwing `timingSafeEqual` is caught); in general every exception inside
the `try` collapses to invalid. -/
theorem verifier_invalid_on_missing_or_malformed :
    (∀ t, verifyTelegramWebAppData "" t = false) ∧
    (∀ i, verifyTelegramWebAppData i "" = false) ∧
    (∀ i t, getParam (parseQuery (utf8 i)) (utf8 "hash") = none →
      verifyTelegramWebAppData i t = false) ∧
    (∀ i t hash, getParam (parseQuery (utf8 i)) (utf8 "hash") = some hash →
      (hexDecode hash).length ≠ 32 →
      verifyTelegramWebAppData i t = false) ∧
    (∀ i t e, verifyInnerTelegram i t = Except.error e →
      verifyTelegramWebAppData i t = false) := by
  refine ⟨?_, ?_, ?_, ?_, ?_⟩
  · intro t
    simp [verifyTelegramWebAppData]
  · intro i
    simp [verifyTelegramWebAppData]
  · intro i t hg
    unfold verifyTelegramWebAppData
    by_cases hi : i = "" ∨ t = ""
    · rw [if_pos hi]
    · rw [if_neg hi]
      unfold verifyInnerTelegram
      simp [hg]
  · intro i t hash hg hlen
    unfold verifyTelegramWebAppData
    by_cases hi : i = "" ∨ t = ""
    · rw [if_pos hi]
    · rw [if_neg hi]
      unfold verifyInnerTelegram
      simp only [hg, timingSafeEq, hexDecode_hexEncode_hmac, hmacSha256_length]
      rw [if_pos hlen]
  · intro i t e he
    unfold verifyTelegramWebAppData
    by_cases hi : i = "" ∨ t = ""
    · rw [if_pos hi]
    · rw [if_neg hi, he]

theorem verifier_invalid_on_missing_or_malformed_witness :
    (verifyTelegramWebAppData "" "T" = false) ∧
    (verifyTelegramWebAppData noHashInitData "" = false) ∧
    (getParam (parseQuery (utf8 noHashInitData)) (utf8 "hash") = none ∧
      verifyTelegramWebAppData noHashInitData "T" = false) ∧
    (getParam (parseQuery (utf8 shortHashInitData)) (utf8 "hash") =
        some (utf8 "00") ∧
      (hexDecode (utf8 "00")).length ≠ 32 ∧
      verifyTelegramWebAppData shortHashInitData "T" = false) :=
  ⟨verifier_invalid_on_missing_or_malformed.1 "T",
   verifier_invalid_on_missing_or_malformed.2.1 noHashInitData,
   ⟨by decide,
    verifier_invalid_on_missing_or_malformed.2.2.1 noHashInitData "T"
      (by decide)⟩,
   ⟨by decide, by decide,
    verifier_invalid_on_missing_or_malformed.2.2.2.1 shortHashInitData "T"
      (utf8 "00") (by decide) (by decide)⟩⟩

/-- **C4** — counterexample.  The claim derives the secondary key by
keyed-hashing the constant string with the shared secret as the key; the
code does the converse (`createHmac('sha256', 'WebAppData')` keyed by
the constant, fed the bot token).  On a payload signed per the code's
algorithm for token `"T"`, the code's verifier accepts while the
claim's algorithm rejects, so the claim's description of when the
verifier returns valid is false. -/
theorem verifier_key_direction_counterexample :
    verifyTelegramWebAppData signedInitData "T" = true ∧
    verifySpecWorded signedInitData "T" = false := by
  constructor
  · decide
  · decide

/-- **C4** — amended.  With the key direction corrected (secondary key =
HMAC keyed by the domain-separation constant over the shared secret),
the verifier returns valid exactly when the provided signature
hex-decodes to the digest `HMAC(secondaryKey, dataCheckString)` — the
data-check string being the parsed pairs minus the signature field,
key-sorted, joined as `key=value` lines; the constant-time comparison is
on the decoded byte buffers. -/
theorem verifier_digest_characterization (i t : String)
    (hi : i ≠ "") (ht : t ≠ "") :
    verifyTelegramWebAppData i t = true ↔
    ∃ hash, getParam (parseQuery (utf8 i)) (utf8 "hash") = some hash ∧
      hexDecode hash =
        hmacSha256 (hmacSha256 (utf8 "WebAppData") (utf8 t))
          (dataCheckString (deleteParam (parseQuery (utf8 i)) (utf8 "hash"))) := by
  unfold verifyTelegramWebAppData
  rw [if_neg (by simp [hi, ht])]
  unfold verifyInnerTelegram
  cases hg : getParam (parseQuery (utf8 i)) (utf8 "hash") with
  | none => simp [hg]
  | some hash =>
    simp only [hg, timingSafeEq, hexDecode_hexEncode_hmac, hmacSha256_length]
    by_cases hlen : (hexDecode hash).length ≠ 32
    · rw [if_pos hlen]
      constructor
      · intro hfalse
        exact absurd hfalse (by decide)
      · intro hcontra
        rcases hcontra with ⟨hash2, heq, hdec⟩
        injection heq with heq2
        subst heq2
        exact absurd (by rw [hdec, hmacSha256_length]) hlen
    · rw [if_neg hlen]
      simp

theorem verifier_digest_characterization_witness :
    signedInitData ≠ "" ∧ ("T" : String) ≠ "" ∧
    verifyTelegramWebAppData signedInitData "T" = true :=
  ⟨by decide, by decide,
   (verifier_digest_characterization signedInitData "T"
       (by decide) (by decide)).mpr
     ⟨utf8 signedHashHex, by decide, by decide⟩⟩

/-- **C2** — counterexample.  With `NODE_ENV === 'production'` but
`SKIP_TELEGRAM_VERIFY === 'true'`, a signed payload that fails the
Signature Verifier is still trusted: the middleware attaches the
extracted identity and calls `next()`, so the bypass is reachable in
production. -/
theorem prod_skip_verify_counterexample :
    prodSkipEnv.nodeEnv = some "production" ∧
    verifyTelegramWebAppData forgedInitData "T" = false ∧
    (telegramAuthMiddleware prodSkipEnv
      { initData := some forgedInitData }).isProceed = true := by
  refine ⟨rfl, by decide, by decide⟩

/-- **C2** — amended.  The signature-verification bypass is controlled
by `NODE_ENV === 'development'` or `SKIP_TELEGRAM_VERIFY === 'true'`
(the latter reachable in production); when the environment is production
and the skip flag is not `'true'`, a signed payload failing the
Signature Verifier never proceeds — the middleware answers 500 (no bot
token) or 401 (invalid signature). -/
theorem prod_verification_enforced_without_skip (env : Env) (body : AuthBody)
    (hprod : env.nodeEnv = some "production")
    (hskip : env.skipTelegramVerify ≠ some "true")
    (hinit : truthyStr body.initData = true)
    (hver : verifyTelegramWebAppData (body.initData.getD "")
      (env.botToken.getD "") = false) :
    (telegramAuthMiddleware env body).isProceed = false := by
  have hdev : ¬(env.nodeEnv = some "development") := by
    rw [hprod]
    simp
  unfold telegramAuthMiddleware
  rw [if_pos (show truthyStr body.initData = true from hinit),
    if_pos ⟨hdev, hskip⟩]
  by_cases htok : truthyStr env.botToken = true
  · rw [if_neg (by rw [htok]; simp), if_pos (by rw [hver]; simp)]
    rfl
  · rw [if_pos (by simpa using htok)]
    rfl

unseal Rat.mul Rat.inv in
/-- **C1** — counterexample.  `POST /api/scores` is mounted with only
the rate limiter and `validateGameResult` — no authentication
middleware.  A submission carrying only a session id, in a production
environment where the auth pipeline would reject it with 401
(session auth disallowed), is accepted with 201: a user row and a
result row are created from the unverified body identity. -/
theorem postScores_unauthenticated_counterexample :
    (telegramAuthMiddleware prodEnv { sessionId := some sid4 }).status = 401 ∧
    (telegramAuthMiddleware prodEnv { sessionId := some sid4 }).isProceed
      = false ∧
    ((postScores sessionScoreBody {}).1).status = 201 ∧
    ((postScores sessionScoreBody {}).2).users.length = 1 ∧
    ((postScores sessionScoreBody {}).2).scores.length = 1 := by
  refine ⟨rfl, rfl, by decide, by decide, by decide⟩

/-- **C1** — amended.  The `POST /api/scores` chain applies no
authentication: the identity is taken from the body's `telegramId` or
`sessionId` without any verification, no response of the route carries
status 401, and the only identity-related rejection is a 400 when both
ids are absent (the row stores any validated result otherwise). -/
theorem postScores_no_auth_in_chain :
    (∀ r : PostScoresResp, r.status ≠ 401) ∧
    (∀ (b : RawScoreBody) (db : Db), b.telegramId = none →
      b.sessionId = none → gameResultFieldErrors b = [] →
      antiCheatCheck b.toGameResult = none →
      postScores b db = (PostScoresResp.missingId, db)) := by
  constructor
  · intro r
    cases r <;> simp [PostScoresResp.status]
  · intro b db ht hs he hac
    unfold postScores validateGameResult postScoresHandler
    simp [he, hac, ht, hs]

unseal Rat.mul Rat.inv in
theorem postScores_no_auth_in_chain_witness :
    (postScores noIdBody {}).1.status ≠ 401 ∧
    noIdBody.telegramId = none ∧ noIdBody.sessionId = none ∧
    gameResultFieldErrors noIdBody = [] ∧
    antiCheatCheck noIdBody.toGameResult = none ∧
    postScores noIdBody {} = (PostScoresResp.missingId, {}) :=
  ⟨postScores_no_auth_in_chain.1 _, rfl, rfl, by decide, by decide,
   postScores_no_auth_in_chain.2 noIdBody {} rfl rfl (by decide) (by decide)⟩

/-- **C3** — counterexample.  The user-creation step of `POST
/api/scores` is a plain `INSERT INTO users (telegram_id, session_id)
VALUES (?, UUID())`: when a concurrent request has already created the
row for the same never-before-seen Telegram id, it fails with a
duplicate-key error rather than upserting. -/
theorem reconciler_plain_insert_counterexample :
    createUserByTelegramScores 5 dbOneTelegramUser =
      Except.error DbErr.dupKey := by
  rfl

/-- **C3** — amended.  Only `POST /api/auth/telegram` creates the user
with an idempotent upsert (`INSERT … ON DUPLICATE KEY UPDATE`, then a
re-read of the canonical row): when the row already exists it succeeds
without duplicating, returning the canonical row's id.  The creation
step of `POST /api/scores` is a plain insert that fails with a
duplicate-key error in the same situation, so the racing score
submission errors instead of succeeding. -/
theorem reconciler_upsert_only_in_auth (db : Db) (tid : Nat)
    (uname : Option String) (u : UserRow)
    (hmem : u ∈ db.users) (htid : u.telegramId = some tid) :
    createUserByTelegramScores tid db = Except.error DbErr.dupKey ∧
    ∃ db2 uid, createUserByTelegramAuth tid uname db =
        Except.ok (db2, some uid) ∧
      db2.users.length = db.users.length ∧
      ∃ v ∈ db2.users, v.telegramId = some tid ∧ v.id = uid := by
  have hany : db.users.any
      (fun v => decide (v.telegramId = some tid)) = true :=
    List.any_eq_true.mpr ⟨u, hmem, by simp [htid]⟩
  constructor
  · unfold createUserByTelegramScores insertUserRow
    rw [if_pos]
    exact List.any_eq_true.mpr ⟨u, hmem, by simp [htid]⟩
  · set db2 : Db :=
      { db with
          nextUuid := db.nextUuid + 1
          users := db.users.map (fun w =>
            if w.telegramId = some tid then { w with username := uname }
            else w) } with hdb2
    have hfindsome : (findUserByTelegram db2 tid).isSome = true := by
      unfold findUserByTelegram
      rw [List.find?_isSome]
      refine ⟨{ u with username := uname }, ?_, by simp [htid]⟩
      rw [hdb2]
      exact List.mem_map.mpr ⟨u, hmem, by rw [if_pos htid]⟩
    obtain ⟨v, hfind⟩ := Option.isSome_iff_exists.mp hfindsome
    have hvmem : v ∈ db2.users := List.mem_of_find?_eq_some hfind
    have hvtid : v.telegramId = some tid := by
      simpa using List.find?_some hfind
    have hrun : createUserByTelegramAuth tid uname db =
        Except.ok (db2, (findUserByTelegram db2 tid).map (fun x => x.id)) := by
      unfold createUserByTelegramAuth
      rw [if_pos hany]
    refine ⟨db2, v.id, ?_, ?_, v, hvmem, hvtid, rfl⟩
    · rw [hrun, hfind]
      rfl
    · rw [hdb2]
      simp

theorem reconciler_upsert_only_in_auth_witness :
    ({ id := 1, sessionId := "uuid-1", telegramId := some 5 : UserRow } ∈
      dbOneTelegramUser.users) ∧
    (createUserByTelegramScores 5 dbOneTelegramUser =
      Except.error DbErr.dupKey) ∧
    (∃ db2 uid, createUserByTelegramAuth 5 (some "vahagn")
        dbOneTelegramUser = Except.ok (db2, some uid) ∧
      db2.users.length = dbOneTelegramUser.users.length ∧
      ∃ v ∈ db2.users, v.telegramId = some 5 ∧ v.id = uid) :=
  ⟨by decide,
   (reconciler_upsert_only_in_auth dbOneTelegramUser 5 (some "vahagn")
     { id := 1, sessionId := "uuid-1", telegramId := some 5 }
     (by decide) (by decide)).1,
   (reconciler_upsert_only_in_auth dbOneTelegramUser 5 (some "vahagn")
     { id := 1, sessionId := "uuid-1", telegramId := some 5 }
     (by decide) (by decide)).2⟩

/-! ## Store lemmas -/

theorem insertUserRow_ok_scores {db : Db} {sid : String}
    {un : Option String} {tid : Option Nat} {db' : Db} {uid : Nat}
    (h : insertUserRow db sid un tid = Except.ok (db', uid)) :
    db'.scores = db.scores := by
  unfold insertUserRow at h
  split at h
  · exact Except.noConfusion h
  · injection h with h2
    cases h2
    rfl

theorem createUserByTelegramScores_ok_scores {tid : Nat} {db db' : Db}
    {uid : Nat}
    (h : createUserByTelegramScores tid db = Except.ok (db', uid)) :
    db'.scores = db.scores := by
  unfold createUserByTelegramScores at h
  have h2 : db'.scores = ({ db with nextUuid := db.nextUuid + 1 } : Db).scores :=
    insertUserRow_ok_scores h
  exact h2

theorem createUserBySessionScores_ok_scores {sid : String} {db db' : Db}
    {uid : Nat}
    (h : createUserBySessionScores sid db = Except.ok (db', uid)) :
    db'.scores = db.scores := by
  unfold createUserBySessionScores at h
  exact insertUserRow_ok_scores h

/-- The rank `storeAndRank` reports: the freshly inserted row never
counts (its score is not strictly greater than itself), so the count is
over the rows stored before the submission. -/
theorem storeAndRank_rank (b : RawScoreBody) (g : GameResult) (db1 : Db)
    (uid : Nat) :
    ((storeAndRank b g db1 uid).1).rank? =
      some (1 + db1.scores.countP (fun r => r.score > g.score)) := by
  unfold storeAndRank insertScore PostScoresResp.rank?
  simp [List.countP_append, List.countP_cons]

/-- Every outcome of the handler is either a `storeAndRank` over a store
with the same score rows, or carries no rank. -/
theorem postScoresHandler_cases (b : RawScoreBody) (g : GameResult) (db : Db) :
    (∃ db1 uid, db1.scores = db.scores ∧
      postScoresHandler b g db = storeAndRank b g db1 uid) ∨
    ((postScoresHandler b g db).1).rank? = none := by
  unfold postScoresHandler
  cases hb : b.telegramId with
  | some t =>
    simp only []
    by_cases ht : t ≠ 0
    · rw [if_pos ht]
      cases hf : findUserByTelegram db t.toNat with
      | some u => exact Or.inl ⟨db, u.id, rfl, rfl⟩
      | none =>
        cases hc : createUserByTelegramScores t.toNat db with
        | error e => exact Or.inr rfl
        | ok p =>
          exact Or.inl ⟨p.1, p.2, createUserByTelegramScores_ok_scores hc, rfl⟩
    · rw [if_neg ht]
      cases hs : b.sessionId with
      | some sid =>
        simp only []
        by_cases hse : sid ≠ ""
        · rw [if_pos hse]
          cases hf : findUserBySession db sid with
          | some u => exact Or.inl ⟨db, u.id, rfl, rfl⟩
          | none =>
            cases hc : createUserBySessionScores sid db with
            | error e => exact Or.inr rfl
            | ok p =>
              exact Or.inl
                ⟨p.1, p.2, createUserBySessionScores_ok_scores hc, rfl⟩
        · rw [if_neg hse]
          exact Or.inr rfl
      | none => exact Or.inr rfl
  | none =>
    simp only []
    cases hs : b.sessionId with
    | some sid =>
      simp only []
      by_cases hse : sid ≠ ""
      · rw [if_pos hse]
        cases hf : findUserBySession db sid with
        | some u => exact Or.inl ⟨db, u.id, rfl, rfl⟩
        | none =>
          cases hc : createUserBySessionScores sid db with
          | error e => exact Or.inr rfl
          | ok p =>
            exact Or.inl
              ⟨p.1, p.2, createUserBySessionScores_ok_scores hc, rfl⟩
      · rw [if_neg hse]
        exact Or.inr rfl
    | none => exact Or.inr rfl

unseal Rat.mul Rat.inv in
/-- **C10** — confirmed.  Whenever `POST /api/scores` answers 201, the
reported rank is `1 +` the number of previously stored result rows —
across all users, counting every row, not each user's best — whose
score strictly exceeds the submitted score.  The profile endpoints
compute a different quantity (`1 +` the number of users whose best
score exceeds this user's best), and the two differ on the same store:
submitting 10 against a store where one user holds two rows of 20 gives
rank 3, while the submitter's profile rank is 2. -/
theorem submitted_rank_vs_profile_rank :
    (∀ (b : RawScoreBody) (g : GameResult) (db : Db),
      ((postScoresHandler b g db).1).rank? ≠ none →
      ((postScoresHandler b g db).1).rank? =
        some (1 + db.scores.countP (fun r => r.score > g.score))) ∧
    (∀ (db : Db) (uid : Nat), profileRank db uid =
      1 + ((scoreUserIds db.scores).filter
        (fun w => bestScoreOf db.scores w > bestScoreOf db.scores uid)).length) ∧
    ((postScoresHandler profileProbeBody profileProbeBody.toGameResult
        dbTwoUsers).1).rank? = some 3 ∧
    profileRank (postScoresHandler profileProbeBody
      profileProbeBody.toGameResult dbTwoUsers).2 2 = 2 := by
  refine ⟨?_, fun db uid => rfl, by decide, by decide⟩
  intro b g db hne
  rcases postScoresHandler_cases b g db with ⟨db1, uid, hsc, heq⟩ | hnone
  · rw [heq, storeAndRank_rank, hsc]
  · exact absurd hnone hne

unseal Rat.mul Rat.inv in
theorem submitted_rank_vs_profile_rank_witness :
    ((postScoresHandler profileProbeBody profileProbeBody.toGameResult
        dbTwoUsers).1).rank? ≠ none ∧
    ((postScoresHandler profileProbeBody profileProbeBody.toGameResult
        dbTwoUsers).1).rank? =
      some (1 + dbTwoUsers.scores.countP
        (fun r => r.score > profileProbeBody.toGameResult.score)) :=
  ⟨by decide,
   submitted_rank_vs_profile_rank.1 profileProbeBody
     profileProbeBody.toGameResult dbTwoUsers (by decide)⟩

/-- **C8** — counterexample.  On a payload whose `user` JSON parses but
lacks the required `id` field (the empty object), the extractor does not
return null/empty: it returns a partial identity record whose
platform-user-id is `undefined`, with the other fields defaulted. -/
theorem extractor_partial_record_counterexample :
    extractTelegramUser emptyObjInitData =
      some { telegramId := JsVal.undef, username := JsVal.null,
             firstName := JsVal.str [], lastName := JsVal.str [],
             languageCode := JsVal.str (utf8 "en"),
             isPremium := JsVal.bool false } := by
  rfl

/-- **C8** — amended.  The extractor returns null when `initData` or its
`user` parameter is missing, when the `user` JSON fails to parse, or
when it parses to JSON `null` (property access throws and is caught);
but a parsed value lacking the `id` field yields a partial record with
an undefined platform-user-id rather than null.  When extraction
succeeds, the locale field defaults to `'en'` and the premium flag to
`false` when those fields are absent. -/
theorem extractor_null_and_defaults :
    (extractTelegramUser "" = none) ∧
    (∀ i, getParam (parseQuery (utf8 i)) (utf8 "user") = none →
      extractTelegramUser i = none) ∧
    (∀ i s, getParam (parseQuery (utf8 i)) (utf8 "user") = some s →
      jsonParse s = none → extractTelegramUser i = none) ∧
    (∀ i s, getParam (parseQuery (utf8 i)) (utf8 "user") = some s →
      jsonParse s = some JsVal.null → extractTelegramUser i = none) ∧
    (∀ i s j u, getParam (parseQuery (utf8 i)) (utf8 "user") = some s →
      jsonParse s = some j → extractTelegramUser i = some u →
      (jsGet j (utf8 "language_code") = Except.ok JsVal.undef →
        u.languageCode = JsVal.str (utf8 "en")) ∧
      (jsGet j (utf8 "is_premium") = Except.ok JsVal.undef →
        u.isPremium = JsVal.bool false)) := by
  have hempty : ∀ s, ¬getParam (parseQuery (utf8 "")) (utf8 "user") = some s := by
    intro s hs
    exact Option.noConfusion hs
  refine ⟨rfl, ?_, ?_, ?_, ?_⟩
  · intro i hg
    unfold extractTelegramUser
    by_cases hi : i = ""
    · rw [if_pos hi]
    · rw [if_neg hi]
      simp [hg]
  · intro i s hg hjson
    by_cases hi : i = ""
    · exact absurd (hi ▸ hg) (hempty s)
    · unfold extractTelegramUser
      rw [if_neg hi]
      simp [hg, hjson]
  · intro i s hg hjson
    by_cases hi : i = ""
    · exact absurd (hi ▸ hg) (hempty s)
    · unfold extractTelegramUser
      rw [if_neg hi]
      simp only [hg, hjson]
      rfl
  · intro i s j u hg hjson hu
    by_cases hi : i = ""
    · exact absurd (hi ▸ hg) (hempty s)
    · unfold extractTelegramUser at hu
      rw [if_neg hi] at hu
      simp only [hg, hjson] at hu
      cases j with
      | undef => exact Option.noConfusion hu
      | null => exact Option.noConfusion hu
      | bool b =>
        have hrec := Option.some.inj hu
        subst hrec
        exact ⟨fun _ => rfl, fun _ => rfl⟩
      | num q =>
        have hrec := Option.some.inj hu
        subst hrec
        exact ⟨fun _ => rfl, fun _ => rfl⟩
      | str sv =>
        have hrec := Option.some.inj hu
        subst hrec
        exact ⟨fun _ => rfl, fun _ => rfl⟩
      | arr es =>
        have hrec := Option.some.inj hu
        subst hrec
        exact ⟨fun _ => rfl, fun _ => rfl⟩
      | obj fields =>
        have hrec := Option.some.inj hu
        subst hrec
        constructor
        · intro hlang
          simp only [jsGet, Except.ok.injEq] at hlang
          simp [jsOr, jsTruthy, hlang]
        · intro hprem
          simp only [jsGet, Except.ok.injEq] at hprem
          simp [jsOr, jsTruthy, hprem]

theorem extractor_null_and_defaults_witness :
    (getParam (parseQuery (utf8 badJsonInitData)) (utf8 "user") =
        some (utf8 "nope") ∧
      jsonParse (utf8 "nope") = none ∧
      extractTelegramUser badJsonInitData = none) ∧
    (getParam (parseQuery (utf8 emptyObjInitData)) (utf8 "user") =
        some (utf8 "\x7b\x7d") ∧
      jsonParse (utf8 "\x7b\x7d") = some (JsVal.obj []) ∧
      (extractTelegramUser emptyObjInitData).map (fun u => u.languageCode) =
        some (JsVal.str (utf8 "en")) ∧
      (extractTelegramUser emptyObjInitData).map (fun u => u.isPremium) =
        some (JsVal.bool false)) := by
  refine ⟨⟨by decide, rfl, ?_⟩, by decide, rfl, ?_, ?_⟩
  · exact extractor_null_and_defaults.2.2.1 badJsonInitData (utf8 "nope")
      (by decide) rfl
  · have h := (extractor_null_and_defaults.2.2.2.2 emptyObjInitData
      (utf8 "\x7b\x7d") (JsVal.obj [])
      { telegramId := JsVal.undef, username := JsVal.null,
        firstName := JsVal.str [], lastName := JsVal.str [],
        languageCode := JsVal.str (utf8 "en"),
        isPremium := JsVal.bool false }
      (by decide) rfl (by rfl)).1 rfl
    rw [show extractTelegramUser emptyObjInitData =
      some { telegramId := JsVal.undef, username := JsVal.null,
             firstName := JsVal.str [], lastName := JsVal.str [],
             languageCode := JsVal.str (utf8 "en"),
             isPremium := JsVal.bool false } from rfl]
    simp [h]
  · have h := (extractor_null_and_defaults.2.2.2.2 emptyObjInitData
      (utf8 "\x7b\x7d") (JsVal.obj [])
      { telegramId := JsVal.undef, username := JsVal.null,
        firstName := JsVal.str [], lastName := JsVal.str [],
        languageCode := JsVal.str (utf8 "en"),
        isPremium := JsVal.bool false }
      (by decide) rfl (by rfl)).2 rfl
    rw [show extractTelegramUser emptyObjInitData =
      some { telegramId := JsVal.undef, username := JsVal.null,
             firstName := JsVal.str [], lastName := JsVal.str [],
             languageCode := JsVal.str (utf8 "en"),
             isPremium := JsVal.bool false } from rfl]
    simp [h]

/-! ## Leaderboard lemmas -/

theorem lexGe_refl (t : String) (r : ScoreRow) : lexGe t r r :=
  Or.inr ⟨rfl, le_refl _⟩

theorem lexGe_trans {t : String} {x y z : ScoreRow}
    (h1 : lexGe t x y) (h2 : lexGe t y z) : lexGe t x z := by
  rcases h1 with h1 | ⟨h1e, h1c⟩ <;> rcases h2 with h2 | ⟨h2e, h2c⟩
  · exact Or.inl (lt_trans h2 h1)
  · exact Or.inl (by rw [h2e]; exact h1)
  · exact Or.inl (by rw [← h1e]; exact h2)
  · exact Or.inr ⟨h2e.trans h1e, le_trans h2c h1c⟩

theorem pickBetter_spec {t : String} {acc : Option ScoreRow}
    {r b : ScoreRow} (h : pickBetter t acc r = some b) :
    lexGe t b r ∧ (∀ a, acc = some a → lexGe t b a) ∧
    (acc = some b ∨ b = r) := by
  cases acc with
  | none =>
    have h' : some r = some b := h
    injection h' with h2
    subst h2
    exact ⟨lexGe_refl t r, fun a ha => Option.noConfusion ha, Or.inr rfl⟩
  | some a0 =>
    have h' : (if rowDim t r > rowDim t a0 ∨
        (rowDim t r = rowDim t a0 ∧ r.createdAt > a0.createdAt)
      then some r else some a0) = some b := h
    by_cases hc : rowDim t r > rowDim t a0 ∨
        (rowDim t r = rowDim t a0 ∧ r.createdAt > a0.createdAt)
    · rw [if_pos hc] at h'
      injection h' with h2
      subst h2
      have hba : lexGe t r a0 := by
        rcases hc with hgt | ⟨he, hct⟩
        · exact Or.inl hgt
        · exact Or.inr ⟨he.symm, le_of_lt hct⟩
      exact ⟨lexGe_refl t r, fun a ha => by injection ha with e; rw [← e]; exact hba,
        Or.inr rfl⟩
    · rw [if_neg hc] at h'
      injection h' with h2
      subst h2
      push_neg at hc
      have hbr : lexGe t a0 r := by
        rcases lt_or_eq_of_le hc.1 with hlt | heq
        · exact Or.inl hlt
        · exact Or.inr ⟨heq, hc.2 heq⟩
      exact ⟨hbr, fun a ha => by injection ha with e; rw [← e]; exact lexGe_refl t a0,
        Or.inl rfl⟩

theorem pickBetter_isSome (t : String) (acc : Option ScoreRow) (r : ScoreRow) :
    ∃ c, pickBetter t acc r = some c := by
  cases acc with
  | none => exact ⟨r, rfl⟩
  | some a0 =>
    by_cases hc : rowDim t r > rowDim t a0 ∨
        (rowDim t r = rowDim t a0 ∧ r.createdAt > a0.createdAt)
    · exact ⟨r, show (if rowDim t r > rowDim t a0 ∨
        (rowDim t r = rowDim t a0 ∧ r.createdAt > a0.createdAt)
        then some r else some a0) = some r from if_pos hc⟩
    · exact ⟨a0, show (if rowDim t r > rowDim t a0 ∨
        (rowDim t r = rowDim t a0 ∧ r.createdAt > a0.createdAt)
        then some r else some a0) = some a0 from if_neg hc⟩

theorem foldl_pickBetter_spec (t : String) :
    ∀ (rows : List ScoreRow) (acc : Option ScoreRow) (b : ScoreRow),
    rows.foldl (pickBetter t) acc = some b →
    (acc = some b ∨ b ∈ rows) ∧ (∀ a, acc = some a → lexGe t b a) ∧
    (∀ s ∈ rows, lexGe t b s) := by
  intro rows
  induction rows with
  | nil =>
    intro acc b h
    have h2 : acc = some b := h
    refine ⟨Or.inl h2, fun a ha => ?_, fun s hs => absurd hs (List.not_mem_nil s)⟩
    rw [h2] at ha
    injection ha with e
    rw [e]
    exact lexGe_refl t a
  | cons r rest ih =>
    intro acc b h
    obtain ⟨hmem, hacc, hrest⟩ := ih (pickBetter t acc r) b h
    obtain ⟨c, hc⟩ := pickBetter_isSome t acc r
    have hbc : lexGe t b c := hacc c hc
    obtain ⟨hcr, hcacc, _⟩ := pickBetter_spec hc
    refine ⟨?_, ?_, ?_⟩
    · rcases hmem with hpb | hbr
      · rcases (pickBetter_spec hpb).2.2 with hl | hr
        · exact Or.inl hl
        · exact Or.inr (hr ▸ List.mem_cons_self r rest)
      · exact Or.inr (List.mem_cons_of_mem r hbr)
    · intro a ha
      exact lexGe_trans hbc (hcacc a ha)
    · intro s hs
      rcases List.mem_cons.mp hs with rfl | hs'
      · exact lexGe_trans hbc hcr
      · exact hrest s hs'

theorem bestRowOf_spec {t : String} {rows : List ScoreRow} {b : ScoreRow}
    (h : bestRowOf t rows = some b) : b ∈ rows ∧ ∀ s ∈ rows, lexGe t b s := by
  obtain ⟨hmem, _, hall⟩ := foldl_pickBetter_spec t rows none b h
  rcases hmem with hnone | hb
  · exact Option.noConfusion hnone
  · exact ⟨hb, hall⟩

theorem leaderRow_eq {t : String} {scores : List ScoreRow}
    (hnd : (scores.map (fun r => r.id)).Nodup) {a b : ScoreRow}
    (ha : a ∈ scores) (hb : b ∈ scores)
    (hla : isLeaderRow t scores a = true) (hlb : isLeaderRow t scores b = true)
    (huid : a.userId = b.userId) : a = b := by
  simp only [isLeaderRow, Bool.decide_and, Bool.and_eq_true, decide_eq_true_eq]
    at hla hlb
  obtain ⟨besta, hba, hia⟩ := Option.map_eq_some'.mp hla.2
  obtain ⟨bestb, hbb, hib⟩ := Option.map_eq_some'.mp hlb.2
  rw [huid] at hba
  rw [hba] at hbb
  injection hbb with he
  have : a.id = b.id := by rw [← hia, ← hib, he]
  exact List.inj_on_of_nodup_map hnd ha hb this

theorem insertRowDesc_perm (t : String) (r : ScoreRow) (l : List ScoreRow) :
    (insertRowDesc t r l).Perm (r :: l) := by
  induction l with
  | nil => exact List.Perm.refl _
  | cons q rest ih =>
    unfold insertRowDesc
    by_cases hc : rowDim t q < rowDim t r
    · rw [if_pos hc]
    · rw [if_neg hc]
      exact List.Perm.trans (List.Perm.cons q ih) (List.Perm.swap r q rest)

theorem insertRowDesc_sorted (t : String) (r : ScoreRow) {l : List ScoreRow}
    (hs : l.Pairwise (fun a b => rowDim t b ≤ rowDim t a)) :
    (insertRowDesc t r l).Pairwise (fun a b => rowDim t b ≤ rowDim t a) := by
  induction l with
  | nil => simp [insertRowDesc]
  | cons q rest ih =>
    rw [List.pairwise_cons] at hs
    unfold insertRowDesc
    by_cases hc : rowDim t q < rowDim t r
    · rw [if_pos hc, List.pairwise_cons]
      refine ⟨?_, List.pairwise_cons.mpr hs⟩
      intro b hb
      rcases List.mem_cons.mp hb with rfl | hb'
      · exact le_of_lt hc
      · exact le_trans (hs.1 b hb') (le_of_lt hc)
    · rw [if_neg hc, List.pairwise_cons]
      refine ⟨?_, ih hs.2⟩
      intro b hb
      have hb2 := (insertRowDesc_perm t r rest).mem_iff.mp hb
      rcases List.mem_cons.mp hb2 with rfl | hb'
      · exact not_lt.mp hc
      · exact hs.1 b hb'

theorem sortRowsDesc_sorted (t : String) (rows : List ScoreRow) :
    (sortRowsDesc t rows).Pairwise (fun a b => rowDim t b ≤ rowDim t a) := by
  suffices h : ∀ (l : List ScoreRow) (acc : List ScoreRow),
      acc.Pairwise (fun a b => rowDim t b ≤ rowDim t a) →
      (l.foldl (fun acc r => insertRowDesc t r acc) acc).Pairwise
        (fun a b => rowDim t b ≤ rowDim t a) from
    h rows [] List.Pairwise.nil
  intro l
  induction l with
  | nil => intro acc h; exact h
  | cons r rest ih => intro acc h; exact ih _ (insertRowDesc_sorted t r h)

theorem sortRowsDesc_perm (t : String) (rows : List ScoreRow) :
    (sortRowsDesc t rows).Perm rows := by
  suffices h : ∀ (l acc : List ScoreRow),
      (l.foldl (fun acc r => insertRowDesc t r acc) acc).Perm (l ++ acc) by
    simpa using h rows []
  intro l
  induction l with
  | nil => intro acc; exact List.Perm.refl _
  | cons r rest ih =>
    intro acc
    have h1 := ih (insertRowDesc t r acc)
    have h2 : (rest ++ insertRowDesc t r acc).Perm (rest ++ (r :: acc)) :=
      (insertRowDesc_perm t r acc).append_left rest
    have h3 : (rest ++ (r :: acc)).Perm (r :: (rest ++ acc)) := List.perm_middle
    exact h1.trans (h2.trans h3)

theorem getSafeInt_mem (v : Option String) (d mn mx : Int)
    (h1 : mn ≤ d) (h2 : d ≤ mx) :
    mn ≤ getSafeInt v d mn mx ∧ getSafeInt v d mn mx ≤ mx := by
  unfold getSafeInt
  cases hp : parseIntJs v with
  | none => exact ⟨h1, h2⟩
  | some n =>
    show mn ≤ (if n < mn ∨ n > mx then d else n) ∧
      (if n < mn ∨ n > mx then d else n) ≤ mx
    by_cases hc : n < mn ∨ n > mx
    · rw [if_pos hc]
      exact ⟨h1, h2⟩
    · rw [if_neg hc]
      push_neg at hc
      exact ⟨hc.1, hc.2⟩

/-- **C9** — confirmed.  For every leaderboard query: the returned page
holds each distinct user at most once; it is ordered descending on the
chosen dimension; under the accuracy dimension every returned row has
at least 10 shots fired; limit and offset are clamped into `[1, 100]`
and `[0, 100000]` before reaching the query; and each returned row is
its user's best eligible row on the dimension, ties broken by the most
recent `created_at` (row ids assumed unique, as the primary key makes
them). -/
theorem leaderboard_page_properties (db : Db)
    (qtype qlimit qoffset : Option String)
    (hnd : (db.scores.map (fun r => r.id)).Nodup) :
    (leaderboardRows db qtype qlimit qoffset).Pairwise
      (fun a b => a.userId ≠ b.userId) ∧
    ((leaderboardRows db qtype qlimit qoffset).map
      (rowDim (leaderboardType qtype))).Sorted (· ≥ ·) ∧
    (leaderboardType qtype = "accuracy" →
      ∀ r ∈ leaderboardRows db qtype qlimit qoffset, r.shotsFired ≥ 10) ∧
    (1 ≤ getSafeInt qlimit 10 1 100 ∧ getSafeInt qlimit 10 1 100 ≤ 100 ∧
      0 ≤ getSafeInt qoffset 0 0 100000 ∧
      getSafeInt qoffset 0 0 100000 ≤ 100000) ∧
    (∀ r ∈ leaderboardRows db qtype qlimit qoffset, ∀ s ∈ db.scores,
      s.userId = r.userId → rowEligible (leaderboardType qtype) s = true →
      lexGe (leaderboardType qtype) r s) := by
  have hsubl : (leaderboardRows db qtype qlimit qoffset).Sublist
      (sortRowsDesc (leaderboardType qtype)
        (db.scores.filter (isLeaderRow (leaderboardType qtype) db.scores))) := by
    unfold leaderboardRows
    exact List.Sublist.trans (List.take_sublist _ _) (List.drop_sublist _ _)
  have hperm := sortRowsDesc_perm (leaderboardType qtype)
    (db.scores.filter (isLeaderRow (leaderboardType qtype) db.scores))
  have hmemf : ∀ r ∈ leaderboardRows db qtype qlimit qoffset,
      r ∈ db.scores.filter (isLeaderRow (leaderboardType qtype) db.scores) :=
    fun r hr => hperm.subset (hsubl.subset hr)
  refine ⟨?_, ?_, ?_, ?_, ?_⟩
  · have hnodup : (db.scores.filter
        (isLeaderRow (leaderboardType qtype) db.scores)).Nodup :=
      (List.Nodup.of_map _ hnd).filter _
    have hpair : (db.scores.filter
        (isLeaderRow (leaderboardType qtype) db.scores)).Pairwise
        (fun a b => a.userId ≠ b.userId) := by
      refine hnodup.imp_of_mem ?_
      intro a b hamem hbmem hne huid
      obtain ⟨ha1, ha2⟩ := List.mem_filter.mp hamem
      obtain ⟨hb1, hb2⟩ := List.mem_filter.mp hbmem
      exact hne (leaderRow_eq hnd ha1 hb1 ha2 hb2 huid)
    have hpair2 := (hperm.pairwise_iff
      (fun h => by exact fun e => h e.symm)).mpr hpair
    exact hpair2.sublist hsubl
  · have hsorted := sortRowsDesc_sorted (leaderboardType qtype)
      (db.scores.filter (isLeaderRow (leaderboardType qtype) db.scores))
    exact (hsorted.sublist hsubl).map _ (fun a b h => h)
  · intro hacc r hr
    have hmf := hmemf r hr
    obtain ⟨_, hl⟩ := List.mem_filter.mp hmf
    simp only [isLeaderRow, Bool.decide_and, Bool.and_eq_true,
      decide_eq_true_eq] at hl
    have he := hl.1
    rw [hacc] at he
    simpa [rowEligible] using he
  · exact ⟨(getSafeInt_mem qlimit 10 1 100 (by norm_num) (by norm_num)).1,
      (getSafeInt_mem qlimit 10 1 100 (by norm_num) (by norm_num)).2,
      (getSafeInt_mem qoffset 0 0 100000 (by norm_num) (by norm_num)).1,
      (getSafeInt_mem qoffset 0 0 100000 (by norm_num) (by norm_num)).2⟩
  · intro r hr s hsmem hsuid hselig
    have hmf := hmemf r hr
    obtain ⟨hrmem, hl⟩ := List.mem_filter.mp hmf
    simp only [isLeaderRow, Bool.decide_and, Bool.and_eq_true,
      decide_eq_true_eq] at hl
    obtain ⟨best, hbest, hbid⟩ := Option.map_eq_some'.mp hl.2
    obtain ⟨hbmem, hball⟩ := bestRowOf_spec hbest
    obtain ⟨hbmem2, _⟩ := List.mem_filter.mp hbmem
    have hbr : best = r := List.inj_on_of_nodup_map hnd hbmem2 hrmem hbid
    subst hbr
    refine hball s (List.mem_filter.mpr ⟨hsmem, ?_⟩)
    simp [hsuid, hselig]

theorem leaderboard_page_properties_witness :
    ((dbTwoUsers.scores.map (fun r => r.id)).Nodup ∧
      (leaderboardRows dbTwoUsers none none none).map (fun r => r.id) = [2]) ∧
    (leaderboardRows dbTwoUsers none none none).Pairwise
      (fun a b => a.userId ≠ b.userId) ∧
    ((leaderboardRows dbTwoUsers none none none).map
      (rowDim (leaderboardType none))).Sorted (· ≥ ·) :=
  ⟨⟨by decide, by decide⟩,
   (leaderboard_page_properties dbTwoUsers none none none (by decide)).1,
   (leaderboard_page_properties dbTwoUsers none none none (by decide)).2.1⟩

theorem prod_verification_enforced_without_skip_witness :
    prodEnv.nodeEnv = some "production" ∧
    prodEnv.skipTelegramVerify ≠ some "true" ∧
    truthyStr (some forgedInitData) = true ∧
    verifyTelegramWebAppData forgedInitData "T" = false ∧
    (telegramAuthMiddleware prodEnv
      { initData := some forgedInitData }).isProceed = false :=
  ⟨rfl, by decide, by decide, by decide,
   prod_verification_enforced_without_skip prodEnv
     { initData := some forgedInitData }
     rfl (by decide) (by decide) (by decide)⟩

end GameServer
